import Mathlib

set_option maxHeartbeats 1000000

/-!
Verification of the c3 front-end code generator (src/ppci/c3/codegenerator.py).

The code generator is embedded shallowly: the mutable CodeGenerator object
(its IRBuilder cursor, diagnostics sink, module-invalid flag and symbol map)
becomes an explicit state record threaded through a state-plus-exception
monad, and the Python exception discipline (SemanticError caught at statement
boundaries, NotImplementedError and AssertionError fatal) becomes an error
sum type. AST annotations written by the lowerer (expr.typ, expr.lvalue) are
returned as results instead of mutated in place. The TypeContext, the ast
node classes and the irutils Builder are external collaborators that are not
part of the sources under verification; they are modelled from the
specification where noted.
-/

namespace ppci

/-- Source location marker carried by AST nodes. -/
abbrev Loc := Nat

/-- IR scalar types used by the lowering (the ir module handles i8, i32, ptr
and double that codegenerator.py references). -/
inductive IrType
  | i8 | i32 | ptr | double
deriving DecidableEq, Repr

/-- Payload of an ast.Literal node: the Python value kinds dispatched on in
gen_literal_expr. Floats are carried abstractly (no lowering rule inspects the
numeric content of a float literal). -/
inductive PyVal
  | int (v : Int)
  | float (v : Int)
  | bool (b : Bool)
  | str (s : String)
deriving DecidableEq, Repr

/-- Modelled from the spec: source-language types of the c3 ast (astnodes.py
is not among the sources). Base scalars, pointers, arrays, structure types
(field data supplied by the TypeContext) and named type aliases. -/
inductive CType
  | int | double | bool | byte | string
  | pointer (ptype : CType)
  | array (element_type : CType) (size : Nat)
  | structT (sname : String)
  | named (n : String)
deriving DecidableEq, Repr

/-- Exceptions of the code generator: SemanticError (recoverable, caught at
statement boundaries), NotImplementedError and AssertionError (both fatal,
never caught). -/
inductive Err
  | semantic (msg : String) (loc : Option Loc)
  | notImpl (msg : String)
  | assertFail (msg : String)
deriving DecidableEq, Repr

/-- True for the error kinds that propagate out of gencode uncaught. -/
def Err.fatal : Err → Bool
  | .semantic _ _ => false
  | .notImpl _ => true
  | .assertFail _ => true

/-- Constant payloads carried by ir.Const instructions. -/
inductive ConstVal
  | int (v : Int)
  | bytes (bs : List Nat)
  | float (v : Int)
deriving DecidableEq, Repr

/-- An SSA value: its emission id and the ir type of its producer. -/
structure Value where
  id : Nat
  ty : IrType
deriving DecidableEq, Repr

/-- IR instructions emitted by the code generator. Operands are value ids. -/
inductive Instr
  | const (val : ConstVal) (name : String) (ty : IrType)
  | alloc (name : String) (amount : Nat)
  | load (address : Nat) (name : String) (ty : IrType)
  | store (value : Nat) (address : Nat) (volatile : Bool)
  | binop (a : Nat) (operation : String) (b : Nat) (name : String) (ty : IrType)
  | add (a : Nat) (b : Nat) (name : String) (ty : IrType)
  | mul (a : Nat) (b : Nat) (name : String) (ty : IrType)
  | intToPtr (v : Nat) (name : String)
  | ptrToInt (v : Nat) (name : String)
  | byteToInt (v : Nat) (name : String)
  | intToByte (v : Nat) (name : String)
  | addr (producer : Nat) (name : String) (ty : IrType)
  | call (fname : String) (args : List Nat) (name : String) (ty : IrType)
  | jump (target : Nat)
  | cjump (a : Nat) (cond : String) (b : Nat) (lab_yes : Nat) (lab_no : Nat)
  | ret (v : Nat)
deriving DecidableEq, Repr

/-- The ir type of the value produced by an instruction (non-producers are
given a dummy i32; their value is never consumed). -/
def instrTy : Instr → IrType
  | .const _ _ ty => ty
  | .alloc _ _ => .ptr
  | .load _ _ ty => ty
  | .binop _ _ _ _ ty => ty
  | .add _ _ _ ty => ty
  | .mul _ _ _ ty => ty
  | .intToPtr _ _ => .ptr
  | .ptrToInt _ _ => .i32
  | .byteToInt _ _ => .i32
  | .intToByte _ _ => .i8
  | .addr _ _ ty => ty
  | .call _ _ _ ty => ty
  | .store _ _ _ => .i32
  | .jump _ => .i32
  | .cjump _ _ _ _ _ => .i32
  | .ret _ => .i32

/-- An IR function record: name, the synthetic prelude block the builder
cursor sits on after setFunction, the pre-created epilogue block, and the
parameter list grown by add_parameter. -/
structure IrFunc where
  name : String
  preBlock : Nat
  epiloog : Nat
  params : List (String × IrType)
deriving DecidableEq, Repr

/-- The mutable state of one code-generation run: the flat emission trace
(block id, instruction) in emission order, the builder cursor, fresh-id
counters, the diagnostics sink, the module-invalid flag, the symbol map and
the module under construction. -/
structure St where
  trace : List (Nat × Instr) := []
  curBlock : Nat := 0
  nextBlock : Nat := 1
  nextVal : Nat := 0
  curLoc : Option Loc := none
  diags : List (String × Option Loc) := []
  ok : Bool := true
  varMap : List (String × Value) := []
  moduleName : String := ""
  moduleVars : List (String × Nat) := []
  functions : List IrFunc := []
deriving DecidableEq, Repr

/-- Initial state of a run. -/
def initSt : St := {}

/-- The code-generation monad: explicit state threading with exceptions that
leave the state as it was at the raise site (Python exceptions do not roll
back mutations). -/
def CG (α : Type) : Type := St → Except Err α × St

/-- Monadic pure for CG. -/
def CG.pure (a : α) : CG α := fun st => (.ok a, st)

/-- Monadic bind for CG: on error the state at the raise site is kept. -/
def CG.bind (m : CG α) (f : α → CG β) : CG β := fun st =>
  match m st with
  | (.ok a, st1) => f a st1
  | (.error e, st1) => (.error e, st1)

instance : Monad CG where
  pure := CG.pure
  bind := CG.bind

@[simp] theorem run_pure (a : α) (st : St) : (pure a : CG α) st = (.ok a, st) := rfl

@[simp] theorem run_bind (m : CG α) (f : α → CG β) (st : St) :
    (m >>= f) st = match m st with
      | (.ok a, st1) => f a st1
      | (.error e, st1) => (.error e, st1) := rfl

instance : LawfulMonad CG :=
  LawfulMonad.mk' CG
    (by
      intro α m
      funext st
      show CG.bind m (fun a => CG.pure a) st = m st
      rcases h : m st with ⟨r, st1⟩
      cases r <;> simp [CG.bind, CG.pure, h])
    (by intro α β a f; rfl)
    (by
      intro α β γ m f g
      funext st
      show CG.bind (CG.bind m f) g st = CG.bind m (fun x => CG.bind (f x) g) st
      rcases h : m st with ⟨r, st1⟩
      cases r <;> simp [CG.bind, h])

@[simp] theorem run_map (f : α → β) (m : CG α) (st : St) :
    (f <$> m) st = match m st with
      | (.ok a, st1) => (.ok (f a), st1)
      | (.error e, st1) => (.error e, st1) := rfl

/-- Raise an exception. -/
def throwErr (e : Err) : CG α := fun st => (.error e, st)

@[simp] theorem run_throwErr (e : Err) (st : St) : (throwErr e : CG α) st = (.error e, st) := rfl

/-- Read the whole state. -/
def getSt : CG St := fun st => (.ok st, st)

@[simp] theorem run_getSt (st : St) : getSt st = (.ok st, st) := rfl

/-- Lift a pure Except computation into CG. -/
def liftE (x : Except Err α) : CG α := fun st => (x, st)

@[simp] theorem run_liftE (x : Except Err α) (st : St) : liftE x st = (x, st) := rfl

/-- The try/except SemanticError pattern: semantic errors are delivered to
the handler together with the state at the raise site; fatal errors pass. -/
def catchSem (m : CG α) (h : String → Option Loc → CG α) : CG α := fun st =>
  match m st with
  | (.error (.semantic msg loc), st1) => h msg loc st1
  | other => other

@[simp] theorem run_catchSem (m : CG α) (h : String → Option Loc → CG α) (st : St) :
    catchSem m h st = match m st with
      | (.error (.semantic msg loc), st1) => h msg loc st1
      | other => other := rfl

/-! ## Builder primitives

The irutils.Builder is an external collaborator (irutils.py is not among the
sources); its cursor operations are modelled from the spec: newBlock returns
a fresh block, setBlock moves the cursor, emit appends to the current block,
new_function pre-creates the prelude and epilogue blocks, setFunction puts
the cursor at the prelude position. -/

/-- Emit an instruction to the current block; returns its SSA value. -/
def emit (instr : Instr) : CG Value := fun st =>
  (.ok ⟨st.nextVal, instrTy instr⟩,
   {st with nextVal := st.nextVal + 1, trace := st.trace ++ [(st.curBlock, instr)]})

@[simp] theorem run_emit (instr : Instr) (st : St) :
    emit instr st = (.ok ⟨st.nextVal, instrTy instr⟩,
      {st with nextVal := st.nextVal + 1, trace := st.trace ++ [(st.curBlock, instr)]}) := rfl

/-- Allocate a fresh basic block id. -/
def newBlock : CG Nat := fun st =>
  (.ok st.nextBlock, {st with nextBlock := st.nextBlock + 1})

@[simp] theorem run_newBlock (st : St) :
    newBlock st = (.ok st.nextBlock, {st with nextBlock := st.nextBlock + 1}) := rfl

/-- Move the builder cursor to a block. -/
def setBlock (b : Nat) : CG Unit := fun st => (.ok (), {st with curBlock := b})

@[simp] theorem run_setBlock (b : Nat) (st : St) :
    setBlock b st = (.ok (), {st with curBlock := b}) := rfl

/-- Record the source location on the builder (debug info only). -/
def setLoc (l : Loc) : CG Unit := fun st => (.ok (), {st with curLoc := some l})

@[simp] theorem run_setLoc (l : Loc) (st : St) :
    setLoc l st = (.ok (), {st with curLoc := some l}) := rfl

/-- Bind a source symbol to its IR storage value (varMap assignment). -/
def bindVar (name : String) (v : Value) : CG Unit := fun st =>
  (.ok (), {st with varMap := (name, v) :: st.varMap})

@[simp] theorem run_bindVar (name : String) (v : Value) (st : St) :
    bindVar name v st = (.ok (), {st with varMap := (name, v) :: st.varMap}) := rfl

/-- Read a symbol from the varMap; a missing key is a fatal KeyError. -/
def lookupVar (name : String) : CG Value := fun st =>
  match st.varMap.lookup name with
  | some v => (.ok v, st)
  | none => (.error (.notImpl ("KeyError " ++ name)), st)

@[simp] theorem run_lookupVar (name : String) (st : St) :
    lookupVar name st = (match st.varMap.lookup name with
      | some v => (.ok v, st)
      | none => (.error (.notImpl ("KeyError " ++ name)), st)) := rfl

/-- Create an ir.Variable value for a module-level global (not a block
instruction; it only receives a fresh value id of pointer type). -/
def mkGlobalVar : CG Value := fun st =>
  (.ok ⟨st.nextVal, .ptr⟩, {st with nextVal := st.nextVal + 1})

@[simp] theorem run_mkGlobalVar (st : St) :
    mkGlobalVar st = (.ok ⟨st.nextVal, .ptr⟩, {st with nextVal := st.nextVal + 1}) := rfl

/-- Append an ir.Variable of the given byte size to the module. -/
def addModuleVar (name : String) (amount : Nat) : CG Unit := fun st =>
  (.ok (), {st with moduleVars := st.moduleVars ++ [(name, amount)]})

@[simp] theorem run_addModuleVar (name : String) (amount : Nat) (st : St) :
    addModuleVar name amount st
      = (.ok (), {st with moduleVars := st.moduleVars ++ [(name, amount)]}) := rfl

/-- Modelled from the spec: Builder.new_function creates the IR function with
its pre-existing epilogue block and a synthetic prelude position. -/
def new_function (name : String) : CG IrFunc := fun st =>
  let f : IrFunc := ⟨name, st.nextBlock, st.nextBlock + 1, []⟩
  (.ok f, {st with nextBlock := st.nextBlock + 2, functions := st.functions ++ [f]})

@[simp] theorem run_new_function (name : String) (st : St) :
    new_function name st
      = (.ok ⟨name, st.nextBlock, st.nextBlock + 1, []⟩,
         {st with nextBlock := st.nextBlock + 2,
                  functions := st.functions ++ [(⟨name, st.nextBlock, st.nextBlock + 1, []⟩ : IrFunc)]}) := rfl

/-- Modelled from the spec: Builder.setFunction; entering a function puts the
cursor at its synthetic prelude position. -/
def setFunction (f : Option IrFunc) : CG Unit := fun st =>
  (.ok (), match f with
    | some fn => {st with curBlock := fn.preBlock}
    | none => st)

@[simp] theorem run_setFunction (f : Option IrFunc) (st : St) :
    setFunction f st = (.ok (), match f with
      | some fn => {st with curBlock := fn.preBlock}
      | none => st) := rfl

/-- Append an ir.Parameter to a function signature; the parameter is itself
an SSA value. -/
def add_parameter (fname : String) (pname : String) (ty : IrType) : CG Value := fun st =>
  (.ok ⟨st.nextVal, ty⟩,
   {st with nextVal := st.nextVal + 1,
            functions := st.functions.map fun f =>
              if f.name = fname then {f with params := f.params ++ [(pname, ty)]} else f})

@[simp] theorem run_add_parameter (fname pname : String) (ty : IrType) (st : St) :
    add_parameter fname pname ty st
      = (.ok ⟨st.nextVal, ty⟩,
         {st with nextVal := st.nextVal + 1,
                  functions := st.functions.map fun f =>
                    if f.name = fname then {f with params := f.params ++ [(pname, ty)]} else f}) := rfl

/-- The error method of the CodeGenerator: forward the message to the
diagnostics sink and mark the package as invalid. -/
def error (msg : String) (loc : Option Loc) : CG Unit := fun st =>
  (.ok (), {st with ok := false, diags := st.diags ++ [(msg, loc)]})

/-- The state transformation performed by the error method. -/
def recordErr (msg : String) (loc : Option Loc) (st : St) : St :=
  {st with ok := false, diags := st.diags ++ [(msg, loc)]}

@[simp] theorem run_error (msg : String) (loc : Option Loc) (st : St) :
    error msg loc st = (.ok (), recordErr msg loc st) := rfl

/-! ## The TypeContext (external collaborator)

The c3 context object is consumed through the narrow interface of spec
paragraph 6 and is not among the sources; the pieces below are modelled from
the spec. The environment-dependent queries (sizing, well-formedness of a
type, common-type selection, symbol resolution, named-type scope, structure
field tables) are fields of a context record so that theorems stay honest
about what they assume of the collaborator; canonicalisation and type
equality are derived from the scope. -/

/-- A symbol as returned by TypeContext.resolve_symbol: a source variable, a
source constant with its evaluated value, or a function with its mangling
package and signature. -/
inductive Symbol
  | varSym (typ : CType)
  | constSym (cname : String) (typ : CType) (value : Int)
  | funcSym (packageName : String) (fname : String)
      (parametertypes : List CType) (returntype : CType)
deriving DecidableEq, Repr

/-- Modelled from the spec: the TypeContext interface of spec paragraph 6. -/
structure Ctx where
  /-- lookup of named types (the module scope, also used by gen_literal_expr
  through the typemap). -/
  scope : String → Option CType
  /-- size_of(t) in bytes. -/
  size_of : CType → Nat
  /-- check_type(t): some (msg, loc) means a SemanticError is raised. -/
  check_type : CType → Option (String × Option Loc)
  /-- get_common_type for binop result typing. -/
  get_common_type : CType → CType → CType
  /-- resolve_symbol by identifier name. -/
  symbols : String → Option Symbol
  /-- structure field tables: hasField / fieldType / fieldOffset, as a list
  of (field name, field type, byte offset). -/
  structs : String → List (String × CType × Nat)

/-- Modelled from the spec: the_type follows named-type aliases to the
canonical type (one resolution step through the scope). -/
def the_type (ctx : Ctx) : CType → CType
  | .named n =>
    match ctx.scope n with
    | some t => t
    | none => .named n
  | t => t

/-- Modelled from the spec: equal_types compares canonicalised types. -/
def equal_types (ctx : Ctx) (a b : CType) : Bool :=
  the_type ctx a = the_type ctx b

/-- Textual form of a type for diagnostic messages (the ast repr is not
among the sources; the exact rendering is immaterial to the claims). -/
def fmtC : CType → String
  | .int => "int"
  | .double => "double"
  | .bool => "bool"
  | .byte => "byte"
  | .string => "string"
  | .pointer t => fmtC t ++ "*"
  | .array t n => fmtC t ++ "[" ++ toString n ++ "]"
  | .structT s => "struct " ++ s
  | .named s => s

/-- Textual form of a symbol for the cannot-call diagnostic. -/
def symFmt : Symbol → String
  | .varSym t => "var:" ++ fmtC t
  | .constSym n _ _ => "const:" ++ n
  | .funcSym p n _ _ => p ++ "_" ++ n

/-- Run a TypeContext.check_type query, raising its SemanticError if any. -/
def runCheckType (ctx : Ctx) (t : CType) : CG Unit :=
  match ctx.check_type t with
  | none => pure ()
  | some (m, l) => throwErr (.semantic m l)

/-- Resolve an identifier through the context; an unresolved symbol is a
semantic error (spec error taxonomy: reference errors). -/
def resolve_symbol (ctx : Ctx) (name : String) (loc : Loc) : CG Symbol :=
  match ctx.symbols name with
  | some s => pure s
  | none => throwErr (.semantic ("Cannot resolve symbol " ++ name) (some loc))

/-- True when the raw (uncanonicalised) type is a PointerType, as the
isinstance checks in the source test. -/
def isPointerType : CType → Bool
  | .pointer _ => true
  | _ => false

/-- get_ir_type of codegenerator.py: map a source type to the ir type used
for loads and stores. Rendered as a pure Except computation (it reads only
the context). -/
def get_ir_type (ctx : Ctx) (cty0 : CType) (loc : Option Loc) : Except Err IrType :=
  let cty := the_type ctx cty0
  if equal_types ctx cty .int then .ok .i32
  else if equal_types ctx cty .double then .ok .i32
  else if equal_types ctx cty .bool then .ok .i32
  else if equal_types ctx cty .byte then .ok .i8
  else if isPointerType cty then .ok .ptr
  else .error (.semantic ("Cannot determine the load type for " ++ fmtC cty) loc)

/-- pack_string of codegenerator.py: 4 little-endian length bytes followed
by the character data. -/
def pack_string (txt : String) : List Nat :=
  let n := txt.length
  [n % 256, n / 256 % 256, n / 65536 % 256, n / 16777216 % 256]
    ++ txt.toList.map Char.toNat

/-- Python truthiness of a literal payload, used by the literal branch of
gen_cond_code. -/
def truthy : PyVal → Bool
  | .int v => v ≠ 0
  | .float v => v ≠ 0
  | .bool b => b
  | .str s => s ≠ ""

/-! ## The AST

Modelled from the spec: the ast node classes (astnodes.py) are outside the
sources; the constructors mirror exactly the node kinds the code generator
dispatches on. -/

/-- AST expressions. -/
inductive Expression
  | binop (a : Expression) (operation : String) (b : Expression) (loc : Loc)
  | unop (operation : String) (a : Expression) (loc : Loc)
  | identifier (name : String) (loc : Loc)
  | deref (ptrExpr : Expression) (loc : Loc)
  | member (base : Expression) (field : String) (loc : Loc)
  | index (base : Expression) (i : Expression) (loc : Loc)
  | literal (val : PyVal) (loc : Loc)
  | typeCast (a : Expression) (to_type : CType) (loc : Loc)
  | sizeofE (query_typ : CType) (loc : Loc)
  | functionCall (proc : String) (args : List Expression) (loc : Loc)

/-- The source location of an expression node. -/
def Expression.loc : Expression → Loc
  | .binop _ _ _ l => l
  | .unop _ _ l => l
  | .identifier _ l => l
  | .deref _ l => l
  | .member _ _ l => l
  | .index _ _ l => l
  | .literal _ l => l
  | .typeCast _ _ l => l
  | .sizeofE _ l => l
  | .functionCall _ _ l => l

/-- Textual form of an expression for diagnostic messages (the ast repr is
not among the sources; only the node kind is rendered). -/
def fmtE : Expression → String
  | .binop _ o _ _ => "binop " ++ o
  | .unop o _ _ => "unop " ++ o
  | .identifier n _ => "identifier " ++ n
  | .deref _ _ => "deref"
  | .member _ f _ => "member " ++ f
  | .index _ _ _ => "index"
  | .literal _ _ => "literal"
  | .typeCast _ _ _ => "typecast"
  | .sizeofE _ _ => "sizeof"
  | .functionCall p _ _ => "call " ++ p

/-- AST statements. -/
inductive Statement
  | compound (statements : List Statement) (loc : Loc)
  | empty (loc : Loc)
  | assignment (lval : Expression) (rval : Expression) (loc : Loc)
  | expressionStatement (ex : Expression) (loc : Loc)
  | ifStmt (condition : Expression) (truestatement : Statement)
      (falsestatement : Statement) (loc : Loc)
  | returnStmt (expr : Expression) (loc : Loc)
  | whileStmt (condition : Expression) (statement : Statement) (loc : Loc)
  | forStmt (init : Statement) (condition : Expression) (statement : Statement)
      (final : Statement) (loc : Loc)

/-- The source location of a statement node. -/
def Statement.loc : Statement → Loc
  | .compound _ l => l
  | .empty l => l
  | .assignment _ _ l => l
  | .expressionStatement _ l => l
  | .ifStmt _ _ _ l => l
  | .returnStmt _ l => l
  | .whileStmt _ _ l => l
  | .forStmt _ _ _ _ l => l

/-- A symbol of a function inner scope (parameter, local variable, or an
unsupported kind that gen_function rejects fatally). -/
inductive SymKind
  | param | localVar | other
deriving DecidableEq, Repr

/-- A declaration in a function inner scope. -/
structure SymDecl where
  name : String
  typ : CType
  kind : SymKind
deriving DecidableEq, Repr

/-- A source function: name, optional body (externs carry none) and the
inner scope declarations. -/
structure AstFunction where
  name : String
  body : Option Statement
  innerScope : List SymDecl

/-- A module-scope variable declaration. -/
structure AstVariable where
  name : String
  typ : CType
  isLocal : Bool
deriving DecidableEq, Repr

/-- A source module: its type declarations, functions and global variables
(mod.innerScope.variables). -/
structure AstModule where
  name : String
  types : List CType
  functions : List AstFunction
  innerScopeVariables : List AstVariable

/-- The completed IR module returned by gencode. -/
structure IrModule where
  name : String
  moduleVars : List (String × Nat)
  functions : List IrFunc
  trace : List (Nat × Instr)
deriving DecidableEq, Repr

/-! ## Expression lowering

The lowered result of an expression carries, besides the IR value, the two
AST annotations the Python code writes in place (expr.typ and expr.lvalue). -/

/-- Result of gen_expr_code: the IR value plus the typ / lvalue annotations. -/
structure ExprRes where
  value : Value
  typ : CType
  lvalue : Bool
deriving DecidableEq, Repr

/-- do_coerce of codegenerator.py: convert a value of one source type into a
wanted source type, or raise. -/
def do_coerce (ctx : Ctx) (ir_val : Value) (typ wanted_typ : CType)
    (loc : Option Loc) : CG Value :=
  if equal_types ctx typ wanted_typ then
    pure ir_val
  else if equal_types ctx .int typ && isPointerType wanted_typ then
    emit (.intToPtr ir_val.id "coerce")
  else
    throwErr (.semantic ("Cannot use " ++ fmtC typ ++ " as " ++ fmtC wanted_typ) loc)

/-- gen_literal_expr of codegenerator.py: type the literal through the scope
typemap and emit its constant; a string packs its bytes into a Const and
returns an Addr producer over it. -/
def gen_literal_expr (ctx : Ctx) (expr : Expression) : CG ExprRes :=
  match expr with
  | .literal v _loc => do
    let tyname := match v with
      | .int _ => "int"
      | .float _ => "double"
      | .bool _ => "bool"
      | .str _ => "string"
    let typ ← match ctx.scope tyname with
      | some t => pure t
      | none => throwErr (.notImpl ("KeyError " ++ tyname))
    match v with
    | .str s => do
      let cval := pack_string s
      let txt_content ← emit (.const (.bytes cval) "strval" .i32)
      let value ← emit (.addr txt_content.id "addroftxt" .i32)
      pure ⟨value, typ, false⟩
    | .int n => do
      let value ← emit (.const (.int n) "cnst" .i32)
      pure ⟨value, typ, false⟩
    | .bool b => do
      let value ← emit (.const (.int (if b then 1 else 0)) "bool_cnst" .i32)
      pure ⟨value, typ, false⟩
    | .float f => do
      let value ← emit (.const (.float f) "bool_cnst" .double)
      pure ⟨value, typ, false⟩
  | _ => throwErr (.notImpl "gen_literal_expr")

/-- gen_type_cast of codegenerator.py: the legal casts and their emitted
instructions; everything else raises. -/
def gen_type_cast_with (ctx : Ctx) (ar : Value) (a_typ to_type0 : CType)
    (loc : Loc) : CG ExprRes := do
  let from_type := the_type ctx a_typ
  let to_type := the_type ctx to_type0
  if isPointerType from_type && isPointerType to_type then
    pure ⟨ar, to_type0, false⟩
  else if equal_types ctx .int from_type && isPointerType to_type then do
    let v ← emit (.intToPtr ar.id "int2ptr")
    pure ⟨v, to_type0, false⟩
  else if equal_types ctx .int to_type && isPointerType from_type then do
    let v ← emit (.ptrToInt ar.id "ptr2int")
    pure ⟨v, to_type0, false⟩
  else if from_type = .byte && to_type = .int then do
    let v ← emit (.byteToInt ar.id "byte2int")
    pure ⟨v, to_type0, false⟩
  else if from_type = .int && to_type = .byte then do
    let v ← emit (.intToByte ar.id "bytecast")
    pure ⟨v, to_type0, false⟩
  else
    throwErr (.semantic ("Cannot cast " ++ fmtC from_type ++ " to " ++ fmtC to_type)
      (some loc))

/-- Argument type checking loop of gen_function_call: zip of (argument
location, argument typ annotation) against the parameter types. -/
def check_arg_types (ctx : Ctx) : List ((Loc × CType) × CType) → CG Unit
  | [] => pure ()
  | ((loc, aty), pty) :: rest =>
    if equal_types ctx aty pty then check_arg_types ctx rest
    else throwErr (.semantic ("Got " ++ fmtC aty ++ ", expected " ++ fmtC pty) (some loc))

mutual

/-- gen_expr_code of codegenerator.py: dispatch on the expression node kind;
returns the IR value and writes the typ / lvalue annotations. -/
def gen_expr_code (ctx : Ctx) (expr : Expression) : CG ExprRes :=
  match expr with
  | .binop a operation b loc => gen_binop ctx (.binop a operation b loc)
  | .unop operation a _loc =>
    if operation = "&" then do
      let ra ← gen_expr_code ctx a
      if ra.lvalue then
        pure ⟨ra.value, .pointer ra.typ, false⟩
      else
        throwErr (.semantic "No valid lvalue" (some a.loc))
    else
      throwErr (.notImpl ("Unknown unop " ++ operation))
  | .identifier name loc => do
    let target ← resolve_symbol ctx name loc
    match target with
    | .varSym typ => do
      let v ← lookupVar name
      pure ⟨v, typ, true⟩
    | .constSym cname typ value => do
      let v ← emit (.const (.int value) cname .i32)
      pure ⟨v, typ, false⟩
    | .funcSym .. => throwErr (.notImpl ("identifier " ++ name))
  | .deref ptrExpr loc => gen_dereference ctx (.deref ptrExpr loc)
  | .member base field loc => gen_member_expr ctx (.member base field loc)
  | .index base i loc => gen_index_expr ctx (.index base i loc)
  | .literal val loc => gen_literal_expr ctx (.literal val loc)
  | .typeCast a to_type0 loc => gen_type_cast ctx (.typeCast a to_type0 loc)
  | .sizeofE query_typ _loc => do
    runCheckType ctx query_typ
    let type_size := ctx.size_of query_typ
    let v ← emit (.const (.int type_size) "sizeof" .i32)
    pure ⟨v, .int, false⟩
  | .functionCall proc args loc => gen_function_call ctx (.functionCall proc args loc)
termination_by (sizeOf expr, 1)

/-- make_rvalue_expr of codegenerator.py: lower the expression and insert a
Load when the result is an l-value. Returns the value together with the typ
annotation (which callers read back from the node). -/
def make_rvalue_expr (ctx : Ctx) (expr : Expression) : CG (Value × CType) := do
  let r ← gen_expr_code ctx expr
  if r.lvalue then do
    let load_ty ← liftE (get_ir_type ctx r.typ (some expr.loc))
    let v ← emit (.load r.value.id "loaded" load_ty)
    pure (v, r.typ)
  else
    pure (r.value, r.typ)
termination_by (sizeOf expr, 2)

/-- gen_binop of codegenerator.py: lower both operands as r-values, find the
common type, check the operator, coerce and emit. -/
def gen_binop (ctx : Ctx) (expr : Expression) : CG ExprRes :=
  match expr with
  | .binop a operation b loc => do
    let (a_val, a_ty) ← make_rvalue_expr ctx a
    let (b_val, b_ty) ← make_rvalue_expr ctx b
    let common_type := ctx.get_common_type a_ty b_ty
    if operation ∈ (["+", "-", "*", "/", "<<", ">>", "|", "&"] : List String) then do
      let a_val2 ← do_coerce ctx a_val a_ty common_type (some loc)
      let b_val2 ← do_coerce ctx b_val b_ty common_type (some loc)
      let v ← emit (.binop a_val2.id operation b_val2.id "binop" a_val2.ty)
      pure ⟨v, common_type, false⟩
    else
      throwErr (.semantic ("Cannot use " ++ operation) none)
  | _ => throwErr (.notImpl "gen_binop")
termination_by (sizeOf expr, 0)

/-- gen_dereference of codegenerator.py: the pointed-to expression must have
pointer type; the load uses the ir type of the pointer type itself. -/
def gen_dereference (ctx : Ctx) (expr : Expression) : CG ExprRes :=
  match expr with
  | .deref ptrExpr loc => do
    let addrR ← gen_expr_code ctx ptrExpr
    let ptr_typ := the_type ctx addrR.typ
    match ptr_typ with
    | .pointer ptype => do
      let load_ty ← liftE (get_ir_type ctx ptr_typ (some loc))
      let v ← emit (.load addrR.value.id "deref" load_ty)
      pure ⟨v, ptype, true⟩
    | _ => throwErr (.semantic "Cannot deref non-pointer" (some loc))
  | _ => throwErr (.notImpl "gen_dereference")
termination_by (sizeOf expr, 0)

/-- gen_member_expr of codegenerator.py: address arithmetic for a structure
field access; the base must be a structure and (asserted) an l-value. -/
def gen_member_expr (ctx : Ctx) (expr : Expression) : CG ExprRes :=
  match expr with
  | .member base field loc => do
    let baseR ← gen_expr_code ctx base
    let basetype := the_type ctx baseR.typ
    match basetype with
    | .structT sname =>
      match (ctx.structs sname).find? (fun f => f.1 = field) with
      | some (_, fty, foffset) => do
        if baseR.lvalue then pure () else throwErr (.assertFail "expr.lvalue")
        let offset ← emit (.const (.int foffset) "offset" .i32)
        let offset2 ← emit (.intToPtr offset.id "offset")
        let v ← emit (.add baseR.value.id offset2.id "mem_addr" .ptr)
        pure ⟨v, fty, baseR.lvalue⟩
      | none =>
        throwErr (.semantic (fmtC basetype ++ " does not contain field " ++ field)
          (some loc))
    | _ =>
      throwErr (.semantic ("Cannot select " ++ field ++ " of non-structure type "
        ++ fmtC basetype) (some loc))
  | _ => throwErr (.notImpl "gen_member_expr")
termination_by (sizeOf expr, 0)

/-- gen_index_expr of codegenerator.py: array indexing; base must have array
type (semantic error otherwise) and be an l-value (assert); emits
Const(size), Mul, IntToPtr, Add. -/
def gen_index_expr (ctx : Ctx) (expr : Expression) : CG ExprRes :=
  match expr with
  | .index base i _loc => do
    let baseR ← gen_expr_code ctx base
    let idx ← make_rvalue_expr ctx i
    let base_typ := the_type ctx baseR.typ
    match base_typ with
    | .array element_type0 _n => do
      let idxv ← do_coerce ctx idx.1 idx.2 .int (some i.loc)
      if baseR.lvalue then pure () else
        throwErr (.assertFail "Base address must be a location value")
      let element_type := the_type ctx element_type0
      let element_size := ctx.size_of element_type
      let e_size ← emit (.const (.int element_size) "element_size" .i32)
      let offset1 ← emit (.mul idxv.id e_size.id "element_offset" .i32)
      let offset2 ← emit (.intToPtr offset1.id "elem_offset")
      let addrv ← emit (.add baseR.value.id offset2.id "element_address" .ptr)
      pure ⟨addrv, element_type0, true⟩
    | _ =>
      throwErr (.semantic ("Cannot index non-array type " ++ fmtC base_typ)
        (some base.loc))
  | _ => throwErr (.notImpl "gen_index_expr")
termination_by (sizeOf expr, 0)

/-- gen_type_cast of codegenerator.py: lower the operand as an r-value, then
apply the cast table. -/
def gen_type_cast (ctx : Ctx) (expr : Expression) : CG ExprRes :=
  match expr with
  | .typeCast a to_type0 loc => do
    let (ar, a_ty) ← make_rvalue_expr ctx a
    gen_type_cast_with ctx ar a_ty to_type0 loc
  | _ => throwErr (.notImpl "gen_type_cast")
termination_by (sizeOf expr, 0)

/-- gen_function_call of codegenerator.py: evaluate all arguments first,
then resolve the callee, check arity and argument types, and emit the Call. -/
def gen_function_call (ctx : Ctx) (expr : Expression) : CG ExprRes :=
  match expr with
  | .functionCall proc args loc => do
    let argres ← gen_call_args ctx args
    let tg ← resolve_symbol ctx proc loc
    match tg with
    | .funcSym packageName fname2 parametertypes returntype =>
      let fname := packageName ++ "_" ++ fname2
      if args.length ≠ parametertypes.length then
        throwErr (.semantic (fname ++ " requires " ++ toString parametertypes.length
          ++ " arguments, " ++ toString args.length ++ " given") (some loc))
      else do
        check_arg_types ctx
          (((args.map Expression.loc).zip (argres.map Prod.snd)).zip parametertypes)
        let callv ← emit (.call fname (argres.map (fun p => p.1.id)) (fname ++ "_rv") .i32)
        pure ⟨callv, returntype, false⟩
    | _ => throwErr (.semantic ("cannot call " ++ symFmt tg) none)
  | _ => throwErr (.notImpl "gen_function_call")
termination_by (sizeOf expr, 0)

/-- The argument evaluation loop of gen_function_call: each argument is
lowered as an r-value, in order. -/
def gen_call_args (ctx : Ctx) : List Expression → CG (List (Value × CType))
  | [] => pure []
  | a :: rest => do
    let v ← make_rvalue_expr ctx a
    let vs ← gen_call_args ctx rest
    pure (v :: vs)
termination_by args => (sizeOf args, 0)

end

/-! ## Conditional lowering -/

/-- gen_cond_code of codegenerator.py: lower a boolean expression with two
explicit target blocks, implementing short-circuit or / and. Returns the
typ annotation written on the condition node. -/
def gen_cond_code (ctx : Ctx) (expr : Expression) (bbtrue bbfalse : Nat) : CG CType := do
  let typ ← (match expr with
    | .binop a operation b loc =>
      if operation = "or" then do
        let l2 ← newBlock
        let tya ← gen_cond_code ctx a bbtrue l2
        if equal_types ctx tya .bool then pure () else
          throwErr (.semantic "Must be boolean" (some a.loc))
        setBlock l2
        let tyb ← gen_cond_code ctx b bbtrue bbfalse
        if equal_types ctx tyb .bool then pure () else
          throwErr (.semantic "Must be boolean" (some b.loc))
        pure CType.bool
      else if operation = "and" then do
        let l2 ← newBlock
        let tya ← gen_cond_code ctx a l2 bbfalse
        if equal_types ctx tya .bool then pure () else
          error "Must be boolean" (some a.loc)
        setBlock l2
        let tyb ← gen_cond_code ctx b bbtrue bbfalse
        if equal_types ctx tyb .bool then pure () else
          throwErr (.semantic "Must be boolean" (some b.loc))
        pure CType.bool
      else if operation ∈ (["==", ">", "<", "!=", "<=", ">="] : List String) then do
        let (ta, tya) ← make_rvalue_expr ctx a
        let (tb, tyb) ← make_rvalue_expr ctx b
        if equal_types ctx tya tyb then pure () else
          throwErr (.semantic ("Types unequal " ++ fmtC tya ++ " != " ++ fmtC tyb)
            (some loc))
        let _ ← emit (.cjump ta.id operation tb.id bbtrue bbfalse)
        pure CType.bool
      else
        throwErr (.semantic ("non-bool: " ++ operation) (some loc))
    | .literal v lloc => do
      let r ← gen_expr_code ctx (.literal v lloc)
      if truthy v then
        let _ ← emit (.jump bbtrue); pure ()
      else
        let _ ← emit (.jump bbfalse); pure ()
      pure r.typ
    | _ => throwErr (.notImpl "Unknown cond"))
  if equal_types ctx typ .bool then pure () else
    error "Condition must be boolean" (some expr.loc)
  pure typ

/-! ## Statement lowering -/

/-- do_coerce plus store of gen_assignment_stmt of codegenerator.py. -/
def gen_assignment_stmt (ctx : Ctx) (code : Statement) : CG Unit :=
  match code with
  | .assignment lvalE rvalE loc => do
    let lval ← gen_expr_code ctx lvalE
    let (rval, rty) ← make_rvalue_expr ctx rvalE
    let rval2 ← do_coerce ctx rval rty lval.typ (some loc)
    if lval.lvalue then do
      let _ ← emit (.store rval2.id lval.value.id true)
      pure ()
    else
      throwErr (.semantic ("No valid lvalue " ++ fmtE lvalE) (some lvalE.loc))
  | _ => throwErr (.notImpl "gen_assignment_stmt")

/-- gen_return_stmt of codegenerator.py: emit the Return and open a fresh
(unreachable) block as the new cursor. -/
def gen_return_stmt (ctx : Ctx) (code : Statement) : CG Unit :=
  match code with
  | .returnStmt e _loc => do
    let (ret_val, _) ← make_rvalue_expr ctx e
    let _ ← emit (.ret ret_val.id)
    let block ← newBlock
    setBlock block
  | _ => throwErr (.notImpl "gen_return_stmt")

mutual

/-- gen_stmt of codegenerator.py: the statement boundary; semantic errors
from the body are caught here, forwarded to the diagnostics sink, and the
module-invalid flag is set. -/
def gen_stmt (ctx : Ctx) (code : Statement) : CG Unit :=
  catchSem (gen_stmt_body ctx code) (fun msg loc => error msg loc)
termination_by (sizeOf code, 2)

/-- The try-block body of gen_stmt: record the location and dispatch on the
statement kind. -/
def gen_stmt_body (ctx : Ctx) (code : Statement) : CG Unit := do
  setLoc code.loc
  match code with
  | .compound statements _loc => gen_stmt_list ctx statements
  | .empty _loc => pure ()
  | .assignment lvalE rvalE loc => gen_assignment_stmt ctx (.assignment lvalE rvalE loc)
  | .expressionStatement ex _loc => do
    let _ ← gen_expr_code ctx ex
    match ex with
    | .functionCall .. => pure ()
    | _ => throwErr (.semantic "Not a call expression" (some ex.loc))
  | .ifStmt c t f loc => gen_if_stmt ctx (.ifStmt c t f loc)
  | .returnStmt e loc => gen_return_stmt ctx (.returnStmt e loc)
  | .whileStmt c s loc => gen_while ctx (.whileStmt c s loc)
  | .forStmt i c s fin loc => gen_for_stmt ctx (.forStmt i c s fin loc)
termination_by (sizeOf code, 1)

/-- The sequential lowering of a compound statement: each child is lowered
at its own statement boundary. -/
def gen_stmt_list (ctx : Ctx) : List Statement → CG Unit
  | [] => pure ()
  | s :: rest => do
    gen_stmt ctx s
    gen_stmt_list ctx rest
termination_by ss => (sizeOf ss, 0)

/-- gen_if_stmt of codegenerator.py. -/
def gen_if_stmt (ctx : Ctx) (code : Statement) : CG Unit :=
  match code with
  | .ifStmt condition truestatement falsestatement _loc => do
    let true_block ← newBlock
    let bbfalse ← newBlock
    let final_block ← newBlock
    let _ ← gen_cond_code ctx condition true_block bbfalse
    setBlock true_block
    gen_stmt ctx truestatement
    let _ ← emit (.jump final_block)
    setBlock bbfalse
    gen_stmt ctx falsestatement
    let _ ← emit (.jump final_block)
    setBlock final_block
  | _ => throwErr (.notImpl "gen_if_stmt")
termination_by (sizeOf code, 0)

/-- gen_while of codegenerator.py. -/
def gen_while (ctx : Ctx) (code : Statement) : CG Unit :=
  match code with
  | .whileStmt condition statement _loc => do
    let bbdo ← newBlock
    let test_block ← newBlock
    let final_block ← newBlock
    let _ ← emit (.jump test_block)
    setBlock test_block
    let _ ← gen_cond_code ctx condition bbdo final_block
    setBlock bbdo
    gen_stmt ctx statement
    let _ ← emit (.jump test_block)
    setBlock final_block
  | _ => throwErr (.notImpl "gen_while")
termination_by (sizeOf code, 0)

/-- gen_for_stmt of codegenerator.py. -/
def gen_for_stmt (ctx : Ctx) (code : Statement) : CG Unit :=
  match code with
  | .forStmt init condition statement final _loc => do
    let bbdo ← newBlock
    let test_block ← newBlock
    let final_block ← newBlock
    gen_stmt ctx init
    let _ ← emit (.jump test_block)
    setBlock test_block
    let _ ← gen_cond_code ctx condition bbdo final_block
    setBlock bbdo
    gen_stmt ctx statement
    gen_stmt ctx final
    let _ ← emit (.jump test_block)
    setBlock final_block
  | _ => throwErr (.notImpl "gen_for_stmt")
termination_by (sizeOf code, 0)

end

/-! ## Function and module driver -/

/-- gen_function of codegenerator.py: create the IR function, allocate room
for locals (storing parameters into their allocs), lower the body, and close
with the jump to the epilogue. -/
def gen_function (ctx : Ctx) (function : AstFunction) : CG Unit := do
  let ir_function ← new_function function.name
  setFunction (some ir_function)
  let first_block ← newBlock
  let _ ← emit (.jump first_block)
  setBlock first_block
  function.innerScope.forM (fun sym => do
    runCheckType ctx sym.typ
    let storage ← emit (.alloc ("var_" ++ sym.name) (ctx.size_of sym.typ))
    (match sym.kind with
     | .param => do
       let parameter ← add_parameter function.name sym.name .i32
       let _ ← emit (.store parameter.id storage.id false)
       pure ()
     | .localVar => pure ()
     | .other => throwErr (.notImpl sym.name))
    bindVar sym.name storage)
  (match function.body with
   | some b => gen_stmt ctx b
   | none => throwErr (.assertFail "isinstance(code, ast.Statement)"))
  let _ ← emit (.jump ir_function.epiloog)
  setBlock ir_function.epiloog
  setFunction none

/-- The body of the try-block of gencode: check module types, reserve the
global variables and generate every function that carries a body. -/
def gencodeInner (ctx : Ctx) (mod : AstModule) : CG Unit := do
  mod.types.forM (runCheckType ctx)
  let real_functions := mod.functions.filter (fun f => f.body.isSome)
  mod.innerScopeVariables.forM (fun var => do
    let ir_var ← mkGlobalVar
    bindVar var.name ir_var
    if var.isLocal then throwErr (.assertFail "not var.isLocal") else pure ()
    addModuleVar var.name (ctx.size_of var.typ))
  real_functions.forM (gen_function ctx)

/-- The module view returned by gencode (builder.m). -/
def moduleView (st : St) : IrModule :=
  ⟨st.moduleName, st.moduleVars, st.functions, st.trace⟩

/-- The per-run initialisation at the top of gencode: reset the module
invalid flag, the symbol map and the module under construction. -/
def startModule (name : String) : CG Unit := fun st =>
  (.ok (), {st with ok := true, varMap := [], moduleName := name, moduleVars := []})

@[simp] theorem run_startModule (name : String) (st : St) :
    startModule name st
      = (.ok (), {st with ok := true, varMap := [], moduleName := name,
                          moduleVars := []}) := rfl

/-- gencode of codegenerator.py: generate code for a single module. Any
SemanticError escaping the body is recorded once; at the end, if any error
was recorded the run terminates by raising SemanticError
with message Errors occurred, otherwise the completed module is returned. -/
def gencode (mod : AstModule) (ctx : Ctx) : CG IrModule := do
  startModule mod.name
  catchSem (gencodeInner ctx mod) (fun msg loc => error msg loc)
  let st ← getSt
  if st.ok then
    pure (moduleView st)
  else
    throwErr (.semantic "Errors occurred" none)

/-! ## The sink / flag invariant

The only place the code generator touches the module-invalid flag or the
diagnostics sink is the error method, which updates both atomically. DiagOk
states their coupling; every lowering operation preserves it. -/

/-- The module-invalid flag is set exactly when the diagnostics sink is
non-empty. -/
def DiagOk (st : St) : Prop := st.ok = false ↔ st.diags ≠ []

/-- A computation preserves the sink / flag coupling. -/
def PresDiag (m : CG α) : Prop := ∀ st, DiagOk st → DiagOk (m st).2

theorem presDiag_pure (a : α) : PresDiag (pure a : CG α) := fun _ h => h

theorem presDiag_bind {m : CG α} {f : α → CG β}
    (hm : PresDiag m) (hf : ∀ a, PresDiag (f a)) : PresDiag (m >>= f) := by
  intro st h
  simp only [run_bind]
  rcases hmr : m st with ⟨r, st1⟩
  have h1 : DiagOk st1 := by have := hm st h; rwa [hmr] at this
  cases r with
  | ok a => exact hf a st1 h1
  | error e => exact h1

theorem presDiag_throwErr (e : Err) : PresDiag (throwErr e : CG α) := fun _ h => h

theorem presDiag_liftE (x : Except Err α) : PresDiag (liftE x) := fun _ h => h

/-- After the error method the coupling holds unconditionally: the flag is
cleared and the sink is non-empty. -/
theorem diagOk_recordErr (msg : String) (loc : Option Loc) (st : St) :
    DiagOk (recordErr msg loc st) := by
  simp [DiagOk, recordErr]

theorem presDiag_error (msg : String) (loc : Option Loc) : PresDiag (error msg loc) :=
  fun st _ => diagOk_recordErr msg loc st

theorem presDiag_catchSem {m : CG α} {h : String → Option Loc → CG α}
    (hm : PresDiag m) (hh : ∀ s l, PresDiag (h s l)) : PresDiag (catchSem m h) := by
  intro st hd
  simp only [run_catchSem]
  rcases hmr : m st with ⟨r, st1⟩
  have h1 : DiagOk st1 := by have := hm st hd; rwa [hmr] at this
  cases r with
  | ok a => exact h1
  | error e => cases e with
    | semantic s l => exact hh s l st1 h1
    | notImpl s => exact h1
    | assertFail s => exact h1

theorem presDiag_emit (i : Instr) : PresDiag (emit i) := fun _ h => h

theorem presDiag_newBlock : PresDiag newBlock := fun _ h => h

theorem presDiag_setBlock (b : Nat) : PresDiag (setBlock b) := fun _ h => h

theorem presDiag_setLoc (l : Loc) : PresDiag (setLoc l) := fun _ h => h

theorem presDiag_bindVar (n : String) (v : Value) : PresDiag (bindVar n v) :=
  fun _ h => h

theorem presDiag_lookupVar (n : String) : PresDiag (lookupVar n) := by
  intro st h
  simp only [run_lookupVar]
  cases st.varMap.lookup n <;> exact h

theorem presDiag_mkGlobalVar : PresDiag mkGlobalVar := fun _ h => h

theorem presDiag_addModuleVar (n : String) (a : Nat) : PresDiag (addModuleVar n a) :=
  fun _ h => h

theorem presDiag_new_function (n : String) : PresDiag (new_function n) := fun _ h => h

theorem presDiag_setFunction (f : Option IrFunc) : PresDiag (setFunction f) := by
  intro st h
  cases f <;> exact h

theorem presDiag_add_parameter (f p : String) (ty : IrType) :
    PresDiag (add_parameter f p ty) := fun _ h => h

theorem presDiag_runCheckType (ctx : Ctx) (t : CType) : PresDiag (runCheckType ctx t) := by
  unfold runCheckType
  rcases ctx.check_type t with _ | ⟨m, l⟩
  · exact presDiag_pure _
  · exact presDiag_throwErr _

theorem presDiag_resolve_symbol (ctx : Ctx) (n : String) (l : Loc) :
    PresDiag (resolve_symbol ctx n l) := by
  unfold resolve_symbol
  rcases ctx.symbols n with _ | s
  · exact presDiag_throwErr _
  · exact presDiag_pure _

theorem presDiag_do_coerce (ctx : Ctx) (v : Value) (t w : CType) (l : Option Loc) :
    PresDiag (do_coerce ctx v t w l) := by
  unfold do_coerce
  split
  · exact presDiag_pure _
  · split
    · exact presDiag_emit _
    · exact presDiag_throwErr _

theorem presDiag_gen_literal_expr (ctx : Ctx) (e : Expression) :
    PresDiag (gen_literal_expr ctx e) := by
  unfold gen_literal_expr
  split
  case h_1 v loc =>
    cases v <;>
      (dsimp only
       repeat' first
        | exact presDiag_pure _
        | exact presDiag_throwErr _
        | exact presDiag_emit _
        | apply presDiag_bind
        | split
        | intro x)
  case h_2 => exact presDiag_throwErr _

theorem presDiag_gen_type_cast_with (ctx : Ctx) (ar : Value) (t w : CType) (l : Loc) :
    PresDiag (gen_type_cast_with ctx ar t w l) := by
  unfold gen_type_cast_with
  dsimp only
  repeat' first
    | exact presDiag_pure _
    | exact presDiag_throwErr _
    | exact presDiag_emit _
    | apply presDiag_bind
    | split
    | intro x

theorem presDiag_check_arg_types (ctx : Ctx) (l : List ((Loc × CType) × CType)) :
    PresDiag (check_arg_types ctx l) := by
  induction l with
  | nil => exact presDiag_pure _
  | cons p rest ih =>
    rcases p with ⟨⟨lo, aty⟩, pty⟩
    unfold check_arg_types
    split
    · exact ih
    · exact presDiag_throwErr _

theorem presDiag_expr_all (ctx : Ctx) :
    ∀ n : Nat,
      (∀ e : Expression, sizeOf e ≤ n →
        PresDiag (gen_expr_code ctx e) ∧ PresDiag (make_rvalue_expr ctx e))
      ∧ (∀ as : List Expression, sizeOf as ≤ n → PresDiag (gen_call_args ctx as)) := by
  intro n
  induction n with
  | zero =>
    refine ⟨fun e he => absurd he ?_, fun as has => absurd has ?_⟩
    · cases e <;> simp
    · cases as <;> simp
  | succ n ih =>
    obtain ⟨ihE, ihArgs⟩ := ih
    have hGE : ∀ e, sizeOf e ≤ n + 1 → PresDiag (gen_expr_code ctx e) := by
      intro e he
      cases e <;> simp at he <;>
        simp only [gen_expr_code, gen_binop, gen_dereference, gen_member_expr,
          gen_index_expr, gen_type_cast, gen_function_call] <;>
        (try dsimp only) <;>
        repeat' first
          | exact presDiag_pure _
          | exact presDiag_throwErr _
          | exact presDiag_emit _
          | exact presDiag_liftE _
          | exact presDiag_newBlock
          | exact presDiag_setBlock _
          | exact presDiag_do_coerce _ _ _ _ _
          | exact presDiag_resolve_symbol _ _ _
          | exact presDiag_lookupVar _
          | exact presDiag_runCheckType _ _
          | exact presDiag_gen_literal_expr _ _
          | exact presDiag_gen_type_cast_with _ _ _ _ _
          | exact presDiag_check_arg_types _ _
          | exact (ihE _ (by omega)).1
          | exact (ihE _ (by omega)).2
          | exact ihArgs _ (by omega)
          | apply presDiag_bind
          | split
          | intro x
    have hRV : ∀ e, sizeOf e ≤ n + 1 → PresDiag (make_rvalue_expr ctx e) := by
      intro e he
      simp only [make_rvalue_expr]
      apply presDiag_bind (hGE e he)
      intro r
      split
      · exact presDiag_bind (presDiag_liftE _) fun ty =>
          presDiag_bind (presDiag_emit _) fun v => presDiag_pure _
      · exact presDiag_pure _
    refine ⟨fun e he => ⟨hGE e he, hRV e he⟩, ?_⟩
    intro as has
    cases as with
    | nil => simp only [gen_call_args]; exact presDiag_pure _
    | cons a rest =>
      simp at has
      simp only [gen_call_args]
      apply presDiag_bind ((ihE a (by omega)).2)
      intro v
      apply presDiag_bind (ihArgs rest (by omega))
      intro vs
      exact presDiag_pure _

theorem presDiag_gen_expr_code (ctx : Ctx) (e : Expression) :
    PresDiag (gen_expr_code ctx e) :=
  (((presDiag_expr_all ctx (sizeOf e)).1 e le_rfl)).1

theorem presDiag_make_rvalue_expr (ctx : Ctx) (e : Expression) :
    PresDiag (make_rvalue_expr ctx e) :=
  (((presDiag_expr_all ctx (sizeOf e)).1 e le_rfl)).2

theorem presDiag_gen_cond_code (ctx : Ctx) :
    ∀ n, ∀ e : Expression, ∀ T F : Nat, sizeOf e ≤ n →
      PresDiag (gen_cond_code ctx e T F) := by
  intro n
  induction n with
  | zero =>
    intro e T F he
    exact absurd he (by cases e <;> simp)
  | succ n ih =>
    intro e T F he
    cases e <;> simp at he <;>
      simp only [gen_cond_code] <;>
      (try dsimp only) <;>
      repeat' first
        | exact presDiag_pure _
        | exact presDiag_throwErr _
        | exact presDiag_emit _
        | exact presDiag_error _ _
        | exact presDiag_newBlock
        | exact presDiag_setBlock _
        | exact presDiag_gen_expr_code _ _
        | exact presDiag_make_rvalue_expr _ _
        | exact ih _ _ _ (by omega)
        | apply presDiag_bind
        | split
        | intro x

theorem presDiag_gen_assignment_stmt (ctx : Ctx) (code : Statement) :
    PresDiag (gen_assignment_stmt ctx code) := by
  unfold gen_assignment_stmt
  dsimp only
  repeat' first
    | exact presDiag_pure _
    | exact presDiag_throwErr _
    | exact presDiag_emit _
    | exact presDiag_do_coerce _ _ _ _ _
    | exact presDiag_gen_expr_code _ _
    | exact presDiag_make_rvalue_expr _ _
    | apply presDiag_bind
    | split
    | intro x

theorem presDiag_gen_return_stmt (ctx : Ctx) (code : Statement) :
    PresDiag (gen_return_stmt ctx code) := by
  unfold gen_return_stmt
  dsimp only
  repeat' first
    | exact presDiag_pure _
    | exact presDiag_throwErr _
    | exact presDiag_emit _
    | exact presDiag_newBlock
    | exact presDiag_setBlock _
    | exact presDiag_make_rvalue_expr _ _
    | apply presDiag_bind
    | split
    | intro x

theorem presDiag_stmt_all (ctx : Ctx) :
    ∀ n : Nat,
      (∀ s : Statement, sizeOf s ≤ n → PresDiag (gen_stmt ctx s))
      ∧ (∀ ss : List Statement, sizeOf ss ≤ n → PresDiag (gen_stmt_list ctx ss)) := by
  intro n
  induction n with
  | zero =>
    refine ⟨fun s hs => absurd hs ?_, fun ss hss => absurd hss ?_⟩
    · cases s <;> simp
    · cases ss <;> simp
  | succ n ih =>
    obtain ⟨ihS, ihL⟩ := ih
    have hBody : ∀ s : Statement, sizeOf s ≤ n + 1 → PresDiag (gen_stmt_body ctx s) := by
      intro s hs
      cases s <;> simp at hs <;>
        simp only [gen_stmt_body.eq_def] <;>
        (try simp only [gen_if_stmt, gen_while, gen_for_stmt]) <;>
        (try dsimp only) <;>
        repeat' first
          | exact presDiag_pure _
          | exact presDiag_throwErr _
          | exact presDiag_emit _
          | exact presDiag_setLoc _
          | exact presDiag_newBlock
          | exact presDiag_setBlock _
          | exact presDiag_gen_expr_code _ _
          | exact presDiag_gen_assignment_stmt _ _
          | exact presDiag_gen_return_stmt _ _
          | exact presDiag_gen_cond_code _ (sizeOf _) _ _ _ le_rfl
          | exact ihS _ (by omega)
          | exact ihL _ (by omega)
          | apply presDiag_bind
          | split
          | intro x
    have hStmt : ∀ s : Statement, sizeOf s ≤ n + 1 → PresDiag (gen_stmt ctx s) := by
      intro s hs
      simp only [gen_stmt]
      exact presDiag_catchSem (hBody s hs) fun m l => presDiag_error m l
    refine ⟨hStmt, ?_⟩
    intro ss hss
    cases ss with
    | nil => simp only [gen_stmt_list]; exact presDiag_pure _
    | cons s rest =>
      simp at hss
      simp only [gen_stmt_list]
      apply presDiag_bind (hStmt s (by omega))
      intro u
      exact ihL rest (by omega)

theorem presDiag_gen_stmt (ctx : Ctx) (s : Statement) : PresDiag (gen_stmt ctx s) :=
  (presDiag_stmt_all ctx (sizeOf s)).1 s le_rfl

theorem presDiag_forM {β : Type} (l : List β) (f : β → CG Unit)
    (hf : ∀ b, PresDiag (f b)) : PresDiag (l.forM f) := by
  induction l with
  | nil => exact presDiag_pure _
  | cons a rest ihl =>
    simp only [List.forM]
    exact presDiag_bind (hf a) fun _ => ihl

theorem presDiag_gen_function (ctx : Ctx) (f : AstFunction) :
    PresDiag (gen_function ctx f) := by
  unfold gen_function
  dsimp only
  repeat' first
    | exact presDiag_pure _
    | exact presDiag_throwErr _
    | exact presDiag_emit _
    | exact presDiag_newBlock
    | exact presDiag_setBlock _
    | exact presDiag_setFunction _
    | exact presDiag_new_function _
    | exact presDiag_gen_stmt _ _
    | apply presDiag_forM
    | exact presDiag_runCheckType _ _
    | exact presDiag_add_parameter _ _ _
    | exact presDiag_bindVar _ _
    | apply presDiag_bind
    | split
    | intro x

theorem presDiag_gencodeInner (ctx : Ctx) (mod : AstModule) :
    PresDiag (gencodeInner ctx mod) := by
  unfold gencodeInner
  dsimp only
  repeat' first
    | exact presDiag_pure _
    | exact presDiag_throwErr _
    | exact presDiag_mkGlobalVar
    | exact presDiag_bindVar _ _
    | exact presDiag_addModuleVar _ _
    | exact presDiag_runCheckType _ _
    | exact presDiag_gen_function _ _
    | apply presDiag_forM
    | apply presDiag_bind
    | split
    | intro x

/-! ## Auxiliary facts used by the claim theorems -/

/-- True when the canonical type is an array type. -/
def isArrayType : CType → Bool
  | .array _ _ => true
  | _ => false

/-- get_ir_type of any pointer type is the ir pointer type. -/
theorem get_ir_type_pointer (ctx : Ctx) (pt : CType) (l : Option Loc) :
    get_ir_type ctx (.pointer pt) l = .ok .ptr := by
  simp [get_ir_type, equal_types, the_type, isPointerType]

/-- check_arg_types never changes the state. -/
theorem check_arg_types_state (ctx : Ctx) :
    ∀ l : List ((Loc × CType) × CType), ∀ st : St,
      (check_arg_types ctx l st).2 = st := by
  intro l
  induction l with
  | nil => intro st; rfl
  | cons p rest ih =>
    intro st
    rcases p with ⟨⟨lo, aty⟩, pty⟩
    unfold check_arg_types
    split
    · exact ih st
    · rfl

/-- A concrete TypeContext used by the witnesses: the builtin scalar handles
in scope, standard sizes, named types rejected by check_type, and a symbol
table that the individual witnesses override. -/
def ctxW : Ctx where
  scope := fun n =>
    match n with
    | "int" => some .int
    | "double" => some .double
    | "bool" => some .bool
    | "string" => some .string
    | "byte" => some .byte
    | _ => none
  size_of := fun t =>
    match t with
    | .int => 4
    | .double => 8
    | .bool => 4
    | .byte => 1
    | .array e n => n * (match e with | .int => 4 | .byte => 1 | _ => 4)
    | _ => 4
  check_type := fun t =>
    match t with
    | .named n => some ("Ill-formed type " ++ n, none)
    | _ => none
  get_common_type := fun a _ => a
  symbols := fun _ => none
  structs := fun _ => []

/-! ## Claim C3: make_rvalue discipline -/

/-- C3: for every expression e, make_rvalue_expr first lowers e through
gen_expr_code; when the lvalue annotation is true it emits exactly one Load
whose address operand is the lowered value and whose ir type is
get_ir_type of the typ annotation, and returns the loaded value; when the
annotation is false it returns the lowered value unchanged with no further
emission. -/
theorem C3_make_rvalue (ctx : Ctx) (e : Expression) (st st1 : St) (r : ExprRes)
    (h : gen_expr_code ctx e st = (.ok r, st1)) :
    (r.lvalue = true → ∀ ty, get_ir_type ctx r.typ (some e.loc) = .ok ty →
      make_rvalue_expr ctx e st
        = (.ok (⟨st1.nextVal, ty⟩, r.typ),
           {st1 with nextVal := st1.nextVal + 1,
                     trace := st1.trace ++ [(st1.curBlock, .load r.value.id "loaded" ty)]}))
    ∧ (r.lvalue = false →
      make_rvalue_expr ctx e st = (.ok (r.value, r.typ), st1)) := by
  constructor
  · intro hlv ty hty
    simp [make_rvalue_expr.eq_def, h, hlv, hty, instrTy]
  · intro hlv
    simp [make_rvalue_expr.eq_def, h, hlv]

/-- Witness for C3: an identifier bound to storage (lvalue true, one Load of
the ir type of its typ) and an integer literal (lvalue false, returned
unchanged). -/
theorem C3_make_rvalue_witness :
    (make_rvalue_expr
        { ctxW with symbols := fun n => if n = "x" then some (.varSym .int) else none }
        (.identifier "x" 0)
        { initSt with varMap := [("x", ⟨7, .ptr⟩)] }
      = (.ok (⟨0, .i32⟩, .int),
         { initSt with varMap := [("x", ⟨7, .ptr⟩)], nextVal := 1,
                       trace := [(0, .load 7 "loaded" .i32)] }))
    ∧ (make_rvalue_expr ctxW (.literal (.int 2) 0) initSt
      = (.ok (⟨0, .i32⟩, .int),
         { initSt with nextVal := 1,
                       trace := [(0, .const (.int 2) "cnst" .i32)] })) := by
  constructor
  · have h := (C3_make_rvalue
      { ctxW with symbols := fun n => if n = "x" then some (.varSym .int) else none }
      (.identifier "x" 0)
      { initSt with varMap := [("x", ⟨7, .ptr⟩)] }
      { initSt with varMap := [("x", ⟨7, .ptr⟩)] }
      ⟨⟨7, .ptr⟩, .int, true⟩
      (by simp [gen_expr_code, resolve_symbol, initSt, List.lookup])).1
      rfl .i32 (by simp [get_ir_type, equal_types, the_type])
    simpa [initSt] using h
  · have h := (C3_make_rvalue ctxW (.literal (.int 2) 0) initSt
      { initSt with nextVal := 1, trace := [(0, .const (.int 2) "cnst" .i32)] }
      ⟨⟨0, .i32⟩, .int, false⟩
      (by simp [gen_expr_code, gen_literal_expr, ctxW, initSt, instrTy])).2 rfl
    simpa [initSt] using h

/-! ## Claim C6: dereference lowering -/

/-- C6: lowering a dereference requires the pointed-to expression to have
pointer type (otherwise the semantic error Cannot deref non-pointer is
raised at the dereference location); on success the typ annotation is the
pointee type, lvalue is true, and the emitted Load uses the ir type of the
pointer type itself (ptr), not the ir type of the pointee. -/
theorem C6_gen_dereference (ctx : Ctx) (p : Expression) (loc : Loc) (st st1 : St)
    (rp : ExprRes) (h : gen_expr_code ctx p st = (.ok rp, st1)) :
    (∀ pt, the_type ctx rp.typ = .pointer pt →
      gen_expr_code ctx (.deref p loc) st
        = (.ok ⟨⟨st1.nextVal, .ptr⟩, pt, true⟩,
           {st1 with nextVal := st1.nextVal + 1,
                     trace := st1.trace ++ [(st1.curBlock, .load rp.value.id "deref" .ptr)]}))
    ∧ (isPointerType (the_type ctx rp.typ) = false →
      gen_expr_code ctx (.deref p loc) st
        = (.error (.semantic "Cannot deref non-pointer" (some loc)), st1)) := by
  constructor
  · intro pt hpt
    simp [gen_expr_code, gen_dereference.eq_def, h, hpt, get_ir_type_pointer, instrTy]
  · intro hnp
    cases h3 : the_type ctx rp.typ
    case pointer pt =>
      rw [h3] at hnp
      simp [isPointerType] at hnp
    all_goals
      simp only [gen_expr_code, gen_dereference.eq_def, run_bind, h, h3, run_throwErr]

/-- Witness for C6: dereferencing a pointer-typed identifier loads with ir
type ptr; dereferencing an int literal raises Cannot deref non-pointer. -/
theorem C6_gen_dereference_witness :
    (gen_expr_code
        { ctxW with symbols := fun n => if n = "p" then some (.varSym (.pointer .int)) else none }
        (.deref (.identifier "p" 1) 2)
        { initSt with varMap := [("p", ⟨3, .ptr⟩)] }
      = (.ok ⟨⟨0, .ptr⟩, .int, true⟩,
         { initSt with varMap := [("p", ⟨3, .ptr⟩)], nextVal := 1,
                       trace := [(0, .load 3 "deref" .ptr)] }))
    ∧ (gen_expr_code ctxW (.deref (.literal (.int 1) 1) 2) initSt
      = (.error (.semantic "Cannot deref non-pointer" (some 2)),
         { initSt with nextVal := 1,
                       trace := [(0, .const (.int 1) "cnst" .i32)] })) := by
  constructor
  · have h := (C6_gen_dereference
      { ctxW with symbols := fun n => if n = "p" then some (.varSym (.pointer .int)) else none }
      (.identifier "p" 1) 2
      { initSt with varMap := [("p", ⟨3, .ptr⟩)] }
      { initSt with varMap := [("p", ⟨3, .ptr⟩)] }
      ⟨⟨3, .ptr⟩, .pointer .int, true⟩
      (by simp [gen_expr_code, resolve_symbol, initSt, List.lookup])).1
      .int (by simp [the_type])
    simpa [initSt] using h
  · have h := (C6_gen_dereference ctxW (.literal (.int 1) 1) 2 initSt
      { initSt with nextVal := 1, trace := [(0, .const (.int 1) "cnst" .i32)] }
      ⟨⟨0, .i32⟩, .int, false⟩
      (by simp [gen_expr_code, gen_literal_expr, ctxW, initSt, instrTy])).2
      (by simp [the_type, isPointerType])
    simpa [initSt] using h

/-! ## Claim C7: make_rvalue of a string literal (corrected)

The source emits the packed-bytes Const, then builds an Addr over it and
returns the emitted Addr; the literal is annotated lvalue false, so
make_rvalue returns that Addr unchanged. The claim that the packed-bytes
Const producer is returned is false on the code. -/

/-- C7 counterexample: for the string literal with text foo, make_rvalue
returns the value of the Addr producer (the second emission, value id 1),
not the packed-bytes Const producer (the first emission, value id 0). -/
theorem C7_counterexample :
    make_rvalue_expr ctxW (.literal (.str "foo") 0) initSt
      = (.ok (⟨1, .i32⟩, .string),
         { initSt with nextVal := 2,
                       trace := [(0, .const (.bytes (pack_string "foo")) "strval" .i32),
                                 (0, .addr 0 "addroftxt" .i32)] })
    ∧ (⟨1, .i32⟩ : Value) ≠ (⟨0, .i32⟩ : Value) := by
  constructor
  · simp [make_rvalue_expr.eq_def, gen_expr_code, gen_literal_expr, ctxW, initSt, instrTy]
  · simp

/-- C7 amended: for every string literal, make_rvalue_expr returns the
emitted Addr producer typed i32 whose operand is the packed-bytes Const
(the constant carrying 4 little-endian length bytes followed by the ASCII
bytes), which is emitted immediately before the Addr; the Const producer is
not returned. -/
theorem C7_amended (ctx : Ctx) (s : String) (loc : Loc) (st : St) (t : CType)
    (hscope : ctx.scope "string" = some t) :
    make_rvalue_expr ctx (.literal (.str s) loc) st
      = (.ok (⟨st.nextVal + 1, .i32⟩, t),
         {st with nextVal := st.nextVal + 2,
                  trace := st.trace
                    ++ [(st.curBlock, .const (.bytes (pack_string s)) "strval" .i32),
                        (st.curBlock, .addr st.nextVal "addroftxt" .i32)]}) := by
  simp [make_rvalue_expr.eq_def, gen_expr_code, gen_literal_expr, hscope, instrTy]

/-- Witness for C7 amended at the literal foo from the initial state. -/
theorem C7_amended_witness :
    make_rvalue_expr ctxW (.literal (.str "foo") 0) initSt
      = (.ok (⟨1, .i32⟩, .string),
         { initSt with nextVal := 2,
                       trace := [(0, .const (.bytes (pack_string "foo")) "strval" .i32),
                                 (0, .addr 0 "addroftxt" .i32)] }) := by
  have h := C7_amended ctxW "foo" 0 initSt .string (by simp [ctxW])
  simpa [initSt] using h

/-! ## Claim C4: array index lowering -/

/-- C4: lowering an index expression first lowers the base, then the index
as an r-value, requires the base type to be an array (recording the
Cannot index non-array semantic error at the base location otherwise),
coerces the index to the source int type, and then emits, in this order,
Const(element size, i32); Mul(index, size, i32); IntToPtr; Add(base,
offset, ptr); the result typ is the array element type and lvalue is true. -/
theorem C4_gen_index (ctx : Ctx) (base i : Expression) (loc : Loc)
    (st st1 st2 : St) (rb : ExprRes) (vi : Value) (ti : CType)
    (hbase : gen_expr_code ctx base st = (.ok rb, st1))
    (hidx : make_rvalue_expr ctx i st1 = (.ok (vi, ti), st2)) :
    (∀ et n, the_type ctx rb.typ = .array et n →
      equal_types ctx ti .int = true →
      rb.lvalue = true →
      gen_expr_code ctx (.index base i loc) st
        = (.ok ⟨⟨st2.nextVal + 3, .ptr⟩, et, true⟩,
           {st2 with nextVal := st2.nextVal + 4,
                     trace := st2.trace ++
                       [(st2.curBlock,
                          .const (.int (ctx.size_of (the_type ctx et))) "element_size" .i32),
                        (st2.curBlock, .mul vi.id st2.nextVal "element_offset" .i32),
                        (st2.curBlock, .intToPtr (st2.nextVal + 1) "elem_offset"),
                        (st2.curBlock,
                          .add rb.value.id (st2.nextVal + 2) "element_address" .ptr)]}))
    ∧ (isArrayType (the_type ctx rb.typ) = false →
      gen_expr_code ctx (.index base i loc) st
        = (.error (.semantic ("Cannot index non-array type " ++ fmtC (the_type ctx rb.typ))
            (some base.loc)), st2)) := by
  constructor
  · intro et n hat hcoerce hlv
    simp [gen_expr_code, gen_index_expr.eq_def, run_bind, hbase, hidx, hat, hlv,
      do_coerce, hcoerce, instrTy, List.append_assoc]
  · intro hna
    cases h3 : the_type ctx rb.typ
    case array et n =>
      rw [h3, isArrayType] at hna
      simp at hna
    all_goals
      simp only [gen_expr_code, gen_index_expr.eq_def, run_bind, hbase, hidx, h3,
        run_throwErr]

/-- Witness for C4: indexing an int-array identifier with a literal index
emits the Const, Mul, IntToPtr, Add sequence; indexing an int identifier
records the Cannot index non-array type error. -/
theorem C4_gen_index_witness :
    (gen_expr_code
        { ctxW with symbols := fun n =>
            if n = "a" then some (.varSym (.array .int 3))
            else if n = "v" then some (.varSym .int) else none }
        (.index (.identifier "a" 0) (.literal (.int 2) 1) 2)
        { initSt with varMap := [("a", ⟨9, .ptr⟩), ("v", ⟨8, .ptr⟩)] }
      = (.ok ⟨⟨4, .ptr⟩, .int, true⟩,
         { initSt with varMap := [("a", ⟨9, .ptr⟩), ("v", ⟨8, .ptr⟩)], nextVal := 5,
                       trace := [(0, .const (.int 2) "cnst" .i32),
                                 (0, .const (.int 4) "element_size" .i32),
                                 (0, .mul 0 1 "element_offset" .i32),
                                 (0, .intToPtr 2 "elem_offset"),
                                 (0, .add 9 3 "element_address" .ptr)] }))
    ∧ (gen_expr_code
        { ctxW with symbols := fun n =>
            if n = "a" then some (.varSym (.array .int 3))
            else if n = "v" then some (.varSym .int) else none }
        (.index (.identifier "v" 5) (.literal (.int 2) 1) 2)
        { initSt with varMap := [("a", ⟨9, .ptr⟩), ("v", ⟨8, .ptr⟩)] }
      = (.error (.semantic "Cannot index non-array type int" (some 5)),
         { initSt with varMap := [("a", ⟨9, .ptr⟩), ("v", ⟨8, .ptr⟩)], nextVal := 1,
                       trace := [(0, .const (.int 2) "cnst" .i32)] })) := by
  constructor
  · have h := (C4_gen_index
      { ctxW with symbols := fun n =>
          if n = "a" then some (.varSym (.array .int 3))
          else if n = "v" then some (.varSym .int) else none }
      (.identifier "a" 0) (.literal (.int 2) 1) 2
      { initSt with varMap := [("a", ⟨9, .ptr⟩), ("v", ⟨8, .ptr⟩)] }
      { initSt with varMap := [("a", ⟨9, .ptr⟩), ("v", ⟨8, .ptr⟩)] }
      { initSt with varMap := [("a", ⟨9, .ptr⟩), ("v", ⟨8, .ptr⟩)], nextVal := 1,
                    trace := [(0, .const (.int 2) "cnst" .i32)] }
      ⟨⟨9, .ptr⟩, .array .int 3, true⟩ ⟨0, .i32⟩ .int
      (by simp [gen_expr_code, resolve_symbol, initSt, List.lookup])
      (by simp [make_rvalue_expr.eq_def, gen_expr_code, gen_literal_expr, ctxW,
            initSt, instrTy])).1
      .int 3 (by simp [the_type]) (by simp [equal_types, the_type]) rfl
    simpa [initSt, ctxW, the_type] using h
  · have h := (C4_gen_index
      { ctxW with symbols := fun n =>
          if n = "a" then some (.varSym (.array .int 3))
          else if n = "v" then some (.varSym .int) else none }
      (.identifier "v" 5) (.literal (.int 2) 1) 2
      { initSt with varMap := [("a", ⟨9, .ptr⟩), ("v", ⟨8, .ptr⟩)] }
      { initSt with varMap := [("a", ⟨9, .ptr⟩), ("v", ⟨8, .ptr⟩)] }
      { initSt with varMap := [("a", ⟨9, .ptr⟩), ("v", ⟨8, .ptr⟩)], nextVal := 1,
                    trace := [(0, .const (.int 2) "cnst" .i32)] }
      ⟨⟨8, .ptr⟩, .int, true⟩ ⟨0, .i32⟩ .int
      (by simp [gen_expr_code, resolve_symbol, initSt, List.lookup])
      (by simp [make_rvalue_expr.eq_def, gen_expr_code, gen_literal_expr, ctxW,
            initSt, instrTy])).2
      (by simp [the_type, isArrayType])
    simpa [initSt, the_type, fmtC, Expression.loc] using h

/-! ## Claim C8: indexing a non-l-value base (corrected)

The spec claims every non-l-value base of an index expression is reported
as a recoverable semantic-error diagnostic. On the code this holds only
when the base type is not an array: a non-l-value base whose type IS an
array type reaches the bare assert on expr.base.lvalue, an AssertionError
that no statement boundary catches, so code generation fails fatally with
no diagnostic recorded. -/

/-- The context of the C8 scenario: one function symbol f returning an
int array. -/
def ctxC8 : Ctx :=
  { ctxW with symbols := fun n =>
      if n = "f" then some (.funcSym "pkg" "f" [] (.array .int 3)) else none }

/-- The state left behind by the C8 scenario at the moment the assertion
fires: the call and the index constant were emitted, no diagnostic. -/
def stC8 : St :=
  { initSt with curLoc := some 4, nextVal := 2,
                trace := [(0, .call "pkg_f" [] "pkg_f_rv" .i32),
                          (0, .const (.int 0) "cnst" .i32)] }

/-- C8 counterexample: assigning through an index whose base is a call
returning an array type (an r-value) makes gen_stmt terminate with a fatal
AssertionError and an empty diagnostics sink, instead of recording a
recoverable semantic error. -/
theorem C8_counterexample :
    gen_stmt ctxC8
        (.assignment
          (.index (.functionCall "f" [] 0) (.literal (.int 0) 1) 2)
          (.literal (.int 1) 3) 4)
        initSt
      = (.error (.assertFail "Base address must be a location value"), stC8)
    ∧ (Err.assertFail "Base address must be a location value").fatal = true
    ∧ stC8.diags = [] := by
  refine ⟨?_, rfl, rfl⟩
  simp [gen_stmt, gen_stmt_body.eq_def, gen_assignment_stmt, gen_expr_code,
    gen_index_expr.eq_def, gen_function_call.eq_def, gen_call_args, gen_literal_expr,
    make_rvalue_expr.eq_def, check_arg_types, resolve_symbol, do_coerce, equal_types,
    the_type, ctxC8, ctxW, stC8, initSt, instrTy, Statement.loc, Expression.loc]

/-- C8 amended: for an index expression whose base is a non-l-value, the
code generator records the recoverable Cannot index non-array semantic
error only when the base type is not an array type; when the base type is
an array type it instead fails fatally on the assertion that the base is a
location value, leaving the diagnostics sink untouched. -/
theorem C8_amended (ctx : Ctx) (base i : Expression) (loc : Loc)
    (st st1 st2 : St) (rb : ExprRes) (vi : Value) (ti : CType) (et : CType) (n : Nat)
    (hbase : gen_expr_code ctx base st = (.ok rb, st1))
    (hlv : rb.lvalue = false)
    (hidx : make_rvalue_expr ctx i st1 = (.ok (vi, ti), st2))
    (hat : the_type ctx rb.typ = .array et n)
    (hcoerce : equal_types ctx ti .int = true) :
    gen_expr_code ctx (.index base i loc) st
      = (.error (.assertFail "Base address must be a location value"), st2) := by
  simp [gen_expr_code, gen_index_expr.eq_def, run_bind, hbase, hidx, hat, hlv,
    do_coerce, hcoerce]

/-- Witness for C8 amended: the call-returning-an-array base of the
counterexample, taken at the expression level. -/
theorem C8_amended_witness :
    gen_expr_code ctxC8
        (.index (.functionCall "f" [] 0) (.literal (.int 0) 1) 2)
        initSt
      = (.error (.assertFail "Base address must be a location value"),
         { initSt with nextVal := 2,
                       trace := [(0, .call "pkg_f" [] "pkg_f_rv" .i32),
                                 (0, .const (.int 0) "cnst" .i32)] }) := by
  have h := C8_amended ctxC8
    (.functionCall "f" [] 0) (.literal (.int 0) 1) 2
    initSt
    { initSt with nextVal := 1, trace := [(0, .call "pkg_f" [] "pkg_f_rv" .i32)] }
    { initSt with nextVal := 2,
                  trace := [(0, .call "pkg_f" [] "pkg_f_rv" .i32),
                            (0, .const (.int 0) "cnst" .i32)] }
    ⟨⟨0, .i32⟩, .array .int 3, false⟩ ⟨1, .i32⟩ .int .int 3
    (by simp [gen_expr_code, gen_function_call.eq_def, gen_call_args, resolve_symbol,
          check_arg_types, ctxC8, ctxW, initSt, instrTy])
    rfl
    (by simp [make_rvalue_expr.eq_def, gen_expr_code, gen_literal_expr, ctxC8, ctxW,
          initSt, instrTy])
    (by simp [the_type])
    (by simp [equal_types, the_type])
  simpa [initSt] using h

/-! ## Claim C5: call arity diagnostic -/

/-- C5: a function call whose argument count differs from the callee
parameter count raises, after the arguments were lowered, the semantic
error of the exact form mangled requires N arguments, M given, where the
mangled name is package.name underscore function.name, N the parameter
count and M the argument count, and emits no Call instruction (the state is
exactly the post-argument state); at the statement boundary that error is
recorded as a diagnostic. -/
theorem C5_call_arity (ctx : Ctx) (proc : String) (args : List Expression)
    (loc sloc : Loc) (pkg nm : String) (ptypes : List CType) (rt : CType)
    (st st1 : St) (argres : List (Value × CType))
    (hargs : gen_call_args ctx args {st with curLoc := some sloc} = (.ok argres, st1))
    (hsym : ctx.symbols proc = some (.funcSym pkg nm ptypes rt))
    (hlen : args.length ≠ ptypes.length) :
    gen_expr_code ctx (.functionCall proc args loc) {st with curLoc := some sloc}
      = (.error (.semantic (pkg ++ "_" ++ nm ++ " requires " ++ toString ptypes.length
          ++ " arguments, " ++ toString args.length ++ " given") (some loc)), st1)
    ∧ gen_stmt ctx (.expressionStatement (.functionCall proc args loc) sloc) st
      = (.ok (), recordErr (pkg ++ "_" ++ nm ++ " requires " ++ toString ptypes.length
          ++ " arguments, " ++ toString args.length ++ " given") (some loc) st1) := by
  have h1 : gen_expr_code ctx (.functionCall proc args loc) {st with curLoc := some sloc}
      = (.error (.semantic (pkg ++ "_" ++ nm ++ " requires " ++ toString ptypes.length
          ++ " arguments, " ++ toString args.length ++ " given") (some loc)), st1) := by
    simp [gen_expr_code, gen_function_call.eq_def, run_bind, hargs, resolve_symbol,
      hsym, hlen]
  refine ⟨h1, ?_⟩
  simp [gen_stmt, gen_stmt_body.eq_def, Statement.loc, run_bind, run_setLoc, h1]

/-- Witness for C5: calling a two-parameter function with one argument. -/
theorem C5_call_arity_witness :
    gen_stmt
        { ctxW with symbols := fun n =>
            if n = "g" then some (.funcSym "p" "g" [.int, .int] .int) else none }
        (.expressionStatement (.functionCall "g" [.literal (.int 7) 1] 9) 5)
        initSt
      = (.ok (), recordErr "p_g requires 2 arguments, 1 given" (some 9)
          { initSt with curLoc := some 5, nextVal := 1,
                        trace := [(0, .const (.int 7) "cnst" .i32)] }) := by
  have h := (C5_call_arity
    { ctxW with symbols := fun n =>
        if n = "g" then some (.funcSym "p" "g" [.int, .int] .int) else none }
    "g" [.literal (.int 7) 1] 9 5 "p" "g" [.int, .int] .int
    initSt
    { initSt with curLoc := some 5, nextVal := 1,
                  trace := [(0, .const (.int 7) "cnst" .i32)] }
    [(⟨0, .i32⟩, .int)]
    (by simp [gen_call_args, make_rvalue_expr.eq_def, gen_expr_code, gen_literal_expr,
          ctxW, initSt, instrTy])
    rfl
    (by simp)).2
  simpa [initSt] using h

/-! ## Claim C9: arguments are lowered before the call checks -/

/-- C9: gen_function_call evaluates and emits every argument before any of
its checks run; whenever the call is then rejected (unresolvable or
non-function callee, arity mismatch, argument type mismatch), the resulting
state is exactly the post-argument state: everything emitted while lowering
the arguments stays in the trace and nothing is rolled back. -/
theorem C9_args_not_rolled_back (ctx : Ctx) (proc : String) (args : List Expression)
    (loc : Loc) (st st1 st2 : St) (argres : List (Value × CType)) (e : Err)
    (hargs : gen_call_args ctx args st = (.ok argres, st1))
    (herr : gen_expr_code ctx (.functionCall proc args loc) st = (.error e, st2)) :
    st2 = st1 := by
  cases hsym : ctx.symbols proc with
  | none =>
    simp [gen_expr_code, gen_function_call.eq_def, run_bind, hargs, resolve_symbol,
      hsym, Prod.ext_iff] at herr
    exact herr.2.symm
  | some s =>
    cases s with
    | varSym t =>
      simp [gen_expr_code, gen_function_call.eq_def, run_bind, hargs, resolve_symbol,
        hsym, Prod.ext_iff] at herr
      exact herr.2.symm
    | constSym n t v =>
      simp [gen_expr_code, gen_function_call.eq_def, run_bind, hargs, resolve_symbol,
        hsym, Prod.ext_iff] at herr
      exact herr.2.symm
    | funcSym pkg nm ptypes rt =>
      by_cases hl : args.length ≠ ptypes.length
      · simp [gen_expr_code, gen_function_call.eq_def, run_bind, hargs, resolve_symbol,
          hsym, hl, Prod.ext_iff] at herr
        exact herr.2.symm
      · simp only [gen_expr_code, gen_function_call.eq_def, run_bind, hargs,
          resolve_symbol, hsym, run_pure] at herr
        rw [if_neg hl] at herr
        simp only [run_bind] at herr
        rcases hc : check_arg_types ctx
            (((args.map Expression.loc).zip (argres.map Prod.snd)).zip ptypes) st1
          with ⟨rc, stc⟩
        have hstc : stc = st1 := by
          have h5 := check_arg_types_state ctx
            (((args.map Expression.loc).zip (argres.map Prod.snd)).zip ptypes) st1
          rw [hc] at h5
          exact h5
        rw [hc] at herr
        cases rc with
        | ok u =>
          simp [run_bind, run_emit, run_pure] at herr
        | error ee =>
          simp [Prod.ext_iff] at herr
          exact herr.2.symm.trans hstc

/-- Witness for C9: a one-argument call to a two-parameter function; the
Load emitted for the argument survives the arity rejection. -/
theorem C9_args_not_rolled_back_witness :
    (gen_expr_code
        { ctxW with symbols := fun n =>
            if n = "g" then some (.funcSym "p" "g" [.int, .int] .int)
            else if n = "x" then some (.varSym .int) else none }
        (.functionCall "g" [.identifier "x" 1] 9)
        { initSt with varMap := [("x", ⟨4, .ptr⟩)] }).2
      = { initSt with varMap := [("x", ⟨4, .ptr⟩)], nextVal := 1,
                      trace := [(0, .load 4 "loaded" .i32)] } := by
  have hargs : gen_call_args
      { ctxW with symbols := fun n =>
          if n = "g" then some (.funcSym "p" "g" [.int, .int] .int)
          else if n = "x" then some (.varSym .int) else none }
      [.identifier "x" 1]
      { initSt with varMap := [("x", ⟨4, .ptr⟩)] }
      = (.ok [(⟨0, .i32⟩, .int)],
         { initSt with varMap := [("x", ⟨4, .ptr⟩)], nextVal := 1,
                       trace := [(0, .load 4 "loaded" .i32)] }) := by
    simp [gen_call_args, make_rvalue_expr.eq_def, gen_expr_code, resolve_symbol,
      get_ir_type, equal_types, the_type, ctxW, initSt, List.lookup, instrTy]
  have hfull : gen_expr_code
      { ctxW with symbols := fun n =>
          if n = "g" then some (.funcSym "p" "g" [.int, .int] .int)
          else if n = "x" then some (.varSym .int) else none }
      (.functionCall "g" [.identifier "x" 1] 9)
      { initSt with varMap := [("x", ⟨4, .ptr⟩)] }
      = (.error (.semantic "p_g requires 2 arguments, 1 given" (some 9)),
         (gen_expr_code
            { ctxW with symbols := fun n =>
                if n = "g" then some (.funcSym "p" "g" [.int, .int] .int)
                else if n = "x" then some (.varSym .int) else none }
            (.functionCall "g" [.identifier "x" 1] 9)
            { initSt with varMap := [("x", ⟨4, .ptr⟩)] }).2) := by
    simp [gen_expr_code, gen_function_call.eq_def, gen_call_args,
      make_rvalue_expr.eq_def, resolve_symbol, get_ir_type, equal_types, the_type,
      ctxW, initSt, List.lookup, instrTy]
    rfl
  exact C9_args_not_rolled_back _ "g" [.identifier "x" 1] 9 _ _ _ [(⟨0, .i32⟩, .int)]
    _ hargs hfull

/-! ## Claim C2: short-circuit condition lowering -/

/-- C2: lowering a or b with targets (T, F) allocates the fresh block M
(the next unallocated block id), lowers a with targets (T, M), switches the
cursor to M, and lowers b with targets (T, F); symmetrically a and b
allocates M, lowers a with targets (M, F) and lowers b in M with targets
(T, F). A true boolean-literal first operand of or emits only its constant
and a jump straight to T in the current block, after which b is lowered
with the cursor in the fresh block M, and M differs from T (no edge from
the true outcome of a to the block evaluating b); symmetrically a false
first operand of and jumps straight to F, and M differs from F. -/
theorem C2_short_circuit (ctx : Ctx) (b : Expression) (loc la : Loc) (T F : Nat)
    (st : St) (hT : T < st.nextBlock) (hF : F < st.nextBlock)
    (hscope : ctx.scope "bool" = some CType.bool) :
    (∀ a : Expression,
      gen_cond_code ctx (.binop a "or" b loc) T F st
        = (do
            let tya ← gen_cond_code ctx a T st.nextBlock
            (if equal_types ctx tya .bool then pure () else
              throwErr (.semantic "Must be boolean" (some a.loc)))
            setBlock st.nextBlock
            let tyb ← gen_cond_code ctx b T F
            (if equal_types ctx tyb .bool then pure () else
              throwErr (.semantic "Must be boolean" (some b.loc)))
            pure CType.bool) {st with nextBlock := st.nextBlock + 1})
    ∧ (∀ a : Expression,
      gen_cond_code ctx (.binop a "and" b loc) T F st
        = (do
            let tya ← gen_cond_code ctx a st.nextBlock F
            (if equal_types ctx tya .bool then pure () else
              error "Must be boolean" (some a.loc))
            setBlock st.nextBlock
            let tyb ← gen_cond_code ctx b T F
            (if equal_types ctx tyb .bool then pure () else
              throwErr (.semantic "Must be boolean" (some b.loc)))
            pure CType.bool) {st with nextBlock := st.nextBlock + 1})
    ∧ (gen_cond_code ctx (.binop (.literal (.bool true) la) "or" b loc) T F st
        = (do
            let tyb ← gen_cond_code ctx b T F
            (if equal_types ctx tyb .bool then pure () else
              throwErr (.semantic "Must be boolean" (some b.loc)))
            pure CType.bool)
           {st with nextBlock := st.nextBlock + 1,
                    nextVal := st.nextVal + 2,
                    trace := st.trace ++ [(st.curBlock, Instr.const (ConstVal.int 1) "bool_cnst" IrType.i32),
                                          (st.curBlock, Instr.jump T)],
                    curBlock := st.nextBlock})
    ∧ st.nextBlock ≠ T
    ∧ (gen_cond_code ctx (.binop (.literal (.bool false) la) "and" b loc) T F st
        = (do
            let tyb ← gen_cond_code ctx b T F
            (if equal_types ctx tyb .bool then pure () else
              throwErr (.semantic "Must be boolean" (some b.loc)))
            pure CType.bool)
           {st with nextBlock := st.nextBlock + 1,
                    nextVal := st.nextVal + 2,
                    trace := st.trace ++ [(st.curBlock, Instr.const (ConstVal.int 0) "bool_cnst" IrType.i32),
                                          (st.curBlock, Instr.jump F)],
                    curBlock := st.nextBlock})
    ∧ st.nextBlock ≠ F := by
  have hbb : equal_types ctx CType.bool CType.bool = true := by simp [equal_types]
  have hOr : ∀ a : Expression,
      gen_cond_code ctx (.binop a "or" b loc) T F st
        = (do
            let tya ← gen_cond_code ctx a T st.nextBlock
            (if equal_types ctx tya .bool then pure () else
              throwErr (.semantic "Must be boolean" (some a.loc)))
            setBlock st.nextBlock
            let tyb ← gen_cond_code ctx b T F
            (if equal_types ctx tyb .bool then pure () else
              throwErr (.semantic "Must be boolean" (some b.loc)))
            pure CType.bool) {st with nextBlock := st.nextBlock + 1} := by
    intro a
    conv_lhs => rw [gen_cond_code.eq_def]
    simp only [bind_assoc, pure_bind, hbb, if_true, reduceCtorEq, reduceIte,
      String.reduceEq, run_bind, run_newBlock]
    rcases hpa : gen_cond_code ctx a T st.nextBlock {st with nextBlock := st.nextBlock + 1}
      with ⟨ra, sta⟩
    cases ra with
    | error ea => rfl
    | ok tya =>
      cases hba : equal_types ctx tya .bool with
      | false => simp [hba]
      | true =>
        simp only [hba, if_true, run_pure, run_bind, run_setBlock]
        rcases hpb : gen_cond_code ctx b T F {sta with curBlock := st.nextBlock}
          with ⟨rb, stb⟩
        cases rb with
        | error eb => rfl
        | ok tyb =>
          cases hbc : equal_types ctx tyb .bool with
          | false => simp [hbc]
          | true => simp [hbc, hbb]
  have hAnd : ∀ a : Expression,
      gen_cond_code ctx (.binop a "and" b loc) T F st
        = (do
            let tya ← gen_cond_code ctx a st.nextBlock F
            (if equal_types ctx tya .bool then pure () else
              error "Must be boolean" (some a.loc))
            setBlock st.nextBlock
            let tyb ← gen_cond_code ctx b T F
            (if equal_types ctx tyb .bool then pure () else
              throwErr (.semantic "Must be boolean" (some b.loc)))
            pure CType.bool) {st with nextBlock := st.nextBlock + 1} := by
    intro a
    conv_lhs => rw [gen_cond_code.eq_def]
    simp only [bind_assoc, pure_bind, hbb, if_true, reduceCtorEq, reduceIte,
      String.reduceEq, run_bind, run_newBlock]
    rcases hpa : gen_cond_code ctx a st.nextBlock F {st with nextBlock := st.nextBlock + 1}
      with ⟨ra, sta⟩
    cases ra with
    | error ea => rfl
    | ok tya =>
      cases hba : equal_types ctx tya .bool with
      | false =>
        simp only [hba, Bool.false_eq_true, if_false, run_bind, run_error, run_setBlock]
        rcases hpb : gen_cond_code ctx b T F
            {recordErr "Must be boolean" (some a.loc) sta with curBlock := st.nextBlock}
          with ⟨rb, stb⟩
        cases rb with
        | error eb => rfl
        | ok tyb =>
          cases hbc : equal_types ctx tyb .bool with
          | false => simp [hbc]
          | true => simp [hbc, hbb]
      | true =>
        simp only [hba, if_true, run_pure, run_bind, run_setBlock]
        rcases hpb : gen_cond_code ctx b T F {sta with curBlock := st.nextBlock}
          with ⟨rb, stb⟩
        cases rb with
        | error eb => rfl
        | ok tyb =>
          cases hbc : equal_types ctx tyb .bool with
          | false => simp [hbc]
          | true => simp [hbc, hbb]
  have hlitT : gen_cond_code ctx (.literal (.bool true) la) T st.nextBlock
      {st with nextBlock := st.nextBlock + 1}
      = (.ok CType.bool,
         {st with nextBlock := st.nextBlock + 1,
                  nextVal := st.nextVal + 2,
                  trace := st.trace ++ [(st.curBlock, Instr.const (ConstVal.int 1) "bool_cnst" IrType.i32),
                                        (st.curBlock, Instr.jump T)]}) := by
    conv_lhs => rw [gen_cond_code.eq_def]
    simp [gen_expr_code, gen_literal_expr, hscope, hbb, truthy, instrTy]
  have hlitF : gen_cond_code ctx (.literal (.bool false) la) st.nextBlock F
      {st with nextBlock := st.nextBlock + 1}
      = (.ok CType.bool,
         {st with nextBlock := st.nextBlock + 1,
                  nextVal := st.nextVal + 2,
                  trace := st.trace ++ [(st.curBlock, Instr.const (ConstVal.int 0) "bool_cnst" IrType.i32),
                                        (st.curBlock, Instr.jump F)]}) := by
    conv_lhs => rw [gen_cond_code.eq_def]
    simp [gen_expr_code, gen_literal_expr, hscope, hbb, truthy, instrTy]
  refine ⟨hOr, hAnd, ?_, Nat.ne_of_gt hT, ?_, Nat.ne_of_gt hF⟩
  · rw [hOr (.literal (.bool true) la)]
    simp only [run_bind, hlitT, hbb, if_true, run_pure, run_setBlock]
  · rw [hAnd (.literal (.bool false) la)]
    simp only [run_bind, hlitF, hbb, if_true, run_pure, run_setBlock]

/-- Witness for C2: or of the literals true and false with allocated targets
T = 1, F = 2; the constant and the jump straight to T land in the current
block 0, while the second operand is lowered in the fresh block M = 3 (its
jump to F carries block id 3), and M differs from both targets. -/
theorem C2_short_circuit_witness :
    gen_cond_code ctxW
        (.binop (.literal (.bool true) 0) "or" (.literal (.bool false) 1) 2) 1 2
        { initSt with nextBlock := 3 }
      = (.ok CType.bool,
         { initSt with nextBlock := 4, nextVal := 4,
                       trace := [(0, .const (.int 1) "bool_cnst" .i32),
                                 (0, .jump 1),
                                 (3, .const (.int 0) "bool_cnst" .i32),
                                 (3, .jump 2)],
                       curBlock := 3 })
    ∧ (3 : Nat) ≠ 1 ∧ (3 : Nat) ≠ 2 := by
  have h := C2_short_circuit ctxW (.literal (.bool false) 1) 2 0
    1 2 { initSt with nextBlock := 3 }
    (by decide) (by decide) (by simp [ctxW])
  refine ⟨?_, by decide, by decide⟩
  rw [h.2.2.1]
  conv_lhs => rw [gen_cond_code.eq_def]
  simp [gen_expr_code, gen_literal_expr, equal_types, truthy, ctxW, initSt, instrTy]

/-! ## Claim C1: statement-boundary error discipline -/

/-- C1: every SemanticError raised while lowering a statement is caught at
the gen_stmt boundary, forwarded to the diagnostics sink together with the
module-invalid flag (so lowering continues: gen_stmt returns normally and no
semantic error ever escapes a statement boundary); at the end of gencode,
when run from the initial state, if at least one error was recorded the run
terminates by raising SemanticError with message Errors occurred, and if no
error was recorded the completed IR module is returned without raising
(fatal NotImplementedError / AssertionError conditions excepted). -/
theorem C1_error_discipline (ctx : Ctx) :
    (∀ (s : Statement) (st st1 : St) (m : String) (l : Option Loc),
      gen_stmt_body ctx s st = (.error (.semantic m l), st1) →
      gen_stmt ctx s st = (.ok (), recordErr m l st1))
    ∧ (∀ (s : Statement) (st : St) (m : String) (l : Option Loc),
      (gen_stmt ctx s st).1 ≠ .error (.semantic m l))
    ∧ (∀ (mod : AstModule) (r : Except Err IrModule) (st1 : St),
      gencode mod ctx initSt = (r, st1) →
      (∀ e, r = .error e → e.fatal = false) →
      ((r = .ok (moduleView st1) ∧ st1.diags = [])
        ∨ (r = .error (.semantic "Errors occurred" none) ∧ st1.diags ≠ []))) := by
  refine ⟨?_, ?_, ?_⟩
  · intro s st st1 m l hb
    simp only [gen_stmt.eq_def, run_catchSem, hb, run_error]
  · intro s st m l
    simp only [gen_stmt.eq_def, run_catchSem]
    rcases hb : gen_stmt_body ctx s st with ⟨rb, stb⟩
    cases rb with
    | ok u => simp
    | error e => cases e <;> simp
  · intro mod r st1 hrun hnf
    have hd0 : DiagOk
        {initSt with ok := true, varMap := [], moduleName := mod.name, moduleVars := []} := by
      simp [DiagOk, initSt]
    unfold gencode at hrun
    simp only [run_bind, run_startModule, run_getSt] at hrun
    rcases hi : gencodeInner ctx mod
        {initSt with ok := true, varMap := [], moduleName := mod.name, moduleVars := []}
      with ⟨ri, sti⟩
    have hdi : DiagOk sti := by
      have hp := presDiag_gencodeInner ctx mod _ hd0
      rwa [hi] at hp
    rw [run_catchSem, hi] at hrun
    cases ri with
    | ok u =>
      by_cases ho : sti.ok = true
      · simp only [run_bind, run_getSt, ho, if_true, run_pure] at hrun
        left
        have h1 : r = .ok (moduleView sti) := (Prod.ext_iff.mp hrun).1.symm
        have h2 : st1 = sti := (Prod.ext_iff.mp hrun).2.symm
        subst h2
        refine ⟨h1, ?_⟩
        by_contra hne
        have hfo := hdi.mpr hne
        rw [hfo] at ho
        exact absurd ho (by simp)
      · simp only [run_bind, run_getSt, ho, Bool.not_eq_true] at hrun
        simp only [Bool.false_eq_true, if_false, run_throwErr] at hrun
        right
        have h1 : r = .error (.semantic "Errors occurred" none) :=
          (Prod.ext_iff.mp hrun).1.symm
        have h2 : st1 = sti := (Prod.ext_iff.mp hrun).2.symm
        subst h2
        have ho2 := ho
        simp only [Bool.not_eq_true] at ho2
        exact ⟨h1, hdi.mp ho2⟩
    | error e =>
      cases e with
      | semantic m l =>
        simp only [run_error, run_bind, run_getSt, recordErr] at hrun
        simp only [Bool.false_eq_true, if_false, run_throwErr] at hrun
        right
        have h1 : r = .error (.semantic "Errors occurred" none) :=
          (Prod.ext_iff.mp hrun).1.symm
        have h2 : st1 = {sti with ok := false, diags := sti.diags ++ [(m, l)]} :=
          (Prod.ext_iff.mp hrun).2.symm
        subst h2
        exact ⟨h1, by simp⟩
      | notImpl m =>
        simp only [Prod.ext_iff] at hrun
        exact absurd (hnf _ hrun.1.symm) (by simp [Err.fatal])
      | assertFail m =>
        simp only [Prod.ext_iff] at hrun
        exact absurd (hnf _ hrun.1.symm) (by simp [Err.fatal])

/-- The final state of the C1 witness module run: one diagnostic for the
non-call expression statement, module-invalid flag set. -/
def st1C1 : St :=
  { initSt with trace := [(1, Instr.jump 3), (3, Instr.const (ConstVal.int 5) "cnst" IrType.i32),
                          (3, Instr.jump 2)],
                curBlock := 2, nextBlock := 4, nextVal := 3, curLoc := some 3,
                diags := [("Not a call expression", some 7)], ok := false,
                moduleName := "m",
                functions := [⟨"f", 1, 2, []⟩] }

/-- The module of the C1 witness: a single function whose body is an
expression statement that is not a call. -/
def modC1 : AstModule :=
  { name := "m", types := [],
    functions := [{ name := "f",
                    body := some (.expressionStatement (.literal (.int 5) 7) 3),
                    innerScope := [] }],
    innerScopeVariables := [] }

/-- Witness for C1: the semantic error of a non-call expression statement is
caught at the statement boundary and recorded, and the gencode run over the
one-bad-statement module raises Errors occurred with a non-empty sink. -/
theorem C1_error_discipline_witness :
    (gen_stmt ctxW (.expressionStatement (.literal (.int 5) 7) 3) initSt
      = (.ok (), recordErr "Not a call expression" (some 7)
          { initSt with curLoc := some 3, nextVal := 1,
                        trace := [(0, Instr.const (ConstVal.int 5) "cnst" IrType.i32)] }))
    ∧ (((.error (.semantic "Errors occurred" none) : Except Err IrModule)
          = .ok (moduleView st1C1) ∧ st1C1.diags = [])
        ∨ ((.error (.semantic "Errors occurred" none) : Except Err IrModule)
          = .error (.semantic "Errors occurred" none) ∧ st1C1.diags ≠ [])) := by
  constructor
  · exact (C1_error_discipline ctxW).1 _ initSt _ _ _
      (by simp [gen_stmt_body.eq_def, gen_expr_code, gen_literal_expr, ctxW, initSt,
            instrTy, Statement.loc, Expression.loc])
  · exact (C1_error_discipline ctxW).2.2 modC1 _ st1C1
      (by simp [gencode, gencodeInner, gen_function, gen_stmt, gen_stmt_body.eq_def,
            gen_expr_code, gen_literal_expr, runCheckType, instrTy, ctxW, initSt, modC1,
            st1C1, startModule, moduleView, Statement.loc, Expression.loc, List.forM,
            recordErr, List.filter])
      (by intro e he; injection he with h; subst h; rfl)

/-! ## Claim C10: semantic errors outside statement boundaries -/

/-- C10: a SemanticError raised during function lowering outside any
statement boundary (for instance by check_type on a local symbol type in
gen_function) aborts the function loop at that function — no later function
in the list is lowered — and propagates to the single try/except around the
body of gencode, which records exactly one diagnostic for it and then
terminates by raising SemanticError with message Errors occurred. -/
theorem C10_function_level_error (ctx : Ctx) :
    (∀ (f : AstFunction) (fs : List AstFunction) (st st1 : St) (m : String)
        (l : Option Loc),
      gen_function ctx f st = (.error (.semantic m l), st1) →
      (f :: fs).forM (gen_function ctx) st = (.error (.semantic m l), st1))
    ∧ (∀ (mod : AstModule) (st0 st1 : St) (m : String) (l : Option Loc),
      gencodeInner ctx mod
          {st0 with ok := true, varMap := [], moduleName := mod.name, moduleVars := []}
        = (.error (.semantic m l), st1) →
      gencode mod ctx st0
        = (.error (.semantic "Errors occurred" none), recordErr m l st1)) := by
  constructor
  · intro f fs st st1 m l hf
    simp only [List.forM, run_bind, hf]
  · intro mod st0 st1 m l hinner
    unfold gencode
    simp only [run_bind, run_startModule, run_catchSem, hinner, run_error,
      run_getSt, recordErr]
    simp

/-- The function of the C10 witness: a local symbol with an ill-formed
(named, unresolvable) type makes check_type raise inside gen_function. -/
def badFunC10 : AstFunction :=
  { name := "bad", body := some (.empty 0),
    innerScope := [⟨"x", .named "broken", .localVar⟩] }

/-- The second function of the C10 witness; it is never lowered. -/
def okFunC10 : AstFunction :=
  { name := "g", body := some (.empty 1), innerScope := [] }

/-- The state at which the C10 check_type error is raised: only the prelude
jump of the bad function was emitted; nothing of the second function. -/
def stC10 : St :=
  { initSt with trace := [(1, Instr.jump 3)], curBlock := 3, nextBlock := 4,
                nextVal := 1, functions := [⟨"bad", 1, 2, []⟩] }

/-- The module of the C10 witness: the ill-typed function followed by a
healthy one. -/
def modC10 : AstModule :=
  { name := "M", types := [], functions := [badFunC10, okFunC10],
    innerScopeVariables := [] }

/-- Witness for C10: the check_type failure of the first function aborts the
function loop (the second function leaves no artifacts) and gencode records
exactly that one diagnostic before raising Errors occurred. -/
theorem C10_function_level_error_witness :
    ([badFunC10, okFunC10].forM (gen_function ctxW) initSt
      = (.error (.semantic "Ill-formed type broken" none), stC10))
    ∧ (gencode modC10 ctxW initSt
      = (.error (.semantic "Errors occurred" none),
         recordErr "Ill-formed type broken" none {stC10 with moduleName := "M"})) := by
  constructor
  · exact (C10_function_level_error ctxW).1 badFunC10 [okFunC10] initSt stC10 _ _
      (by simp [gen_function, runCheckType, new_function, ctxW, initSt, badFunC10,
            stC10, instrTy, List.forM])
  · exact (C10_function_level_error ctxW).2 modC10 initSt
      {stC10 with moduleName := "M"} _ _
      (by simp [gencodeInner, gen_function, runCheckType, ctxW, initSt, modC10,
            badFunC10, okFunC10, stC10, instrTy, List.forM, List.filter])

end ppci
